import Mathlib

/-!
# phyloFit: unit partitioning, option validation and posterior output

A shallow embedding of `src/phyloFit/phylo_fit.c` (PHAST) and theorems about it.

Conventions of the embedding
* a C `int` is an `Int`; signed overflow is undefined in C, and where the
  options can drive a sum out of the `int` range (the generated windows) the
  model ends with `int_overflow`;
* a pointer that may be `NULL` is an `Option`;
* a PHAST `List` of `int` is a `List Int`, `lst_push_int` appends at the end,
  `lst_size` is the length and `lst_get_int` is indexing;
* `die(...)` and a failing `assert(...)` end the run: the functions return
  `Except Fatal _`, the `Fatal` value naming the call site;
* a `double` rate constant is a rational number: the code only compares them;
* functions of other PHAST modules (`lists.c`, `msa.c`, `trees.c`,
  `category_map.c`, `tree_model.c`, ...) whose results the code merely passes on
  are the fields of `Env`.
-/

namespace PhyloFit

/-! ## Data model -/

/-- Every `die` call and every `assert` of `phylo_fit.c`, by source line. -/
inductive Fatal where
  /-- line 420: `--markov` with `--EM` -/
  | markov_with_em
  /-- line 424: `--lnl` requires `--init-model` -/
  | lnl_requires_init_model
  /-- line 428: `--tree` is not allowed with `--init-model` -/
  | tree_with_init_model
  /-- line 431: `--gaps-as-bases` with an unsupported model -/
  | gaps_as_bases_unsupported
  /-- line 436: `--init-model` required with `--no-freqs` / `--no-rates` -/
  | init_model_required
  /-- line 439: both `--no-freqs` and `--estimate-freqs` -/
  | no_freqs_and_estimate_freqs
  /-- line 455: fewer than two rate constants, or a non-positive one -/
  | rate_consts_not_positive
  /-- line 457: `rate_consts` must have length `nratecats` -/
  | rate_consts_length
  /-- line 463: `--do-cats` with nonoverlapping -/
  | do_cats_with_nonoverlapping
  /-- line 483: `--tree` required -/
  | tree_required
  /-- line 490: `--ancestor` requires `--tree` and a non-reversible model -/
  | ancestor_requires_tree
  /-- line 493: the ancestor sequence must be a child of the root -/
  | ancestor_not_child_of_root
  /-- line 531: `assert(msa->seqs != NULL && msa->ss == NULL)` -/
  | assert_explicit_seqs
  /-- line 566: both `--windows` and `--windows-explicit` -/
  | windows_and_windows_explicit
  /-- line 581: windows need an output file root -/
  | windows_need_output_root
  /-- line 693: no match for leaves of tree in alignment -/
  | no_match_for_leaves
  /-- line 203: `assert(mod->nratecats == 1)` -/
  | assert_nratecats
  /-- line 206: `assert(mod->tree_posteriors == NULL)` -/
  | assert_tree_posteriors
  /-- a `die` inside a function of another module (an `Env` field) -/
  | collaborator
  /-- an access outside a list or an array, or through `NULL` -/
  | bad_access
  /-- a division by zero (`msa->length / pf->window_shift`, line 568) -/
  | division_by_zero
  /-- a loop that never ends (line 569 with a window shift that is not positive) -/
  | no_termination
  /-- line 663: no node named as the subtree -/
  | no_subtree_node
  /-- line 669: unrecognized suffix of the subtree name -/
  | unrecognized_suffix
  /-- line 764: column probabilities require an output file -/
  | column_probs_need_output
  /-- an `int` operation whose result is not an `int` (undefined in C) -/
  | int_overflow
  deriving DecidableEq, Repr

/-- Substitution models named in `phylo_fit.c`; the enumeration itself is in
`subst_mods.h`, every other member is `other`. -/
inductive subst_mod_type where
  | JC69 | F81 | HKY85G | REV | UNREST | SSREV
  | other (code : Nat)
  deriving DecidableEq, Repr

/-- Rooted binary tree (`TreeNode`): a leaf carries its name. -/
inductive TreeNode where
  | leaf (name : String)
  | internal (lchild rchild : TreeNode)
  deriving DecidableEq, Repr

namespace TreeNode

/-- Number of leaves of a tree. -/
def nleaves : TreeNode → Nat
  | leaf _ => 1
  | internal l r => l.nleaves + r.nleaves

/-- Field `tree->nnodes`: the number of nodes, leaves and internal. -/
def nnodes : TreeNode → Nat
  | leaf _ => 1
  | internal l r => l.nnodes + r.nnodes + 1

/-- Names of the leaves, left to right. -/
def leaf_names : TreeNode → List String
  | leaf n => [n]
  | internal l r => l.leaf_names ++ r.leaf_names

end TreeNode

/-- What `run_phyloFit` reads of a node returned by `tr_get_node`. -/
structure NodeInfo where
  /-- field `rl->id` -/
  id : Int
  /-- whether `rl->parent == tree` -/
  parent_is_root : Bool
  deriving DecidableEq, Repr

/-- One feature of a `GFF_Set`, as far as `run_phyloFit` touches it. -/
structure GFF_Feature where
  start : Int
  end_ : Int
  deriving DecidableEq, Repr

/-- Annotation set `GFF_Set`. -/
structure GFF_Set where
  features : List GFF_Feature
  deriving DecidableEq, Repr

/-- Category map `CategoryMap`: treated as a token handed to `category_map.c`. -/
structure CategoryMap where
  tag : Nat
  deriving DecidableEq, Repr

/-- The alignment `MSA`, as far as `run_phyloFit` inspects it. -/
structure MSA where
  /-- `msa->names`; `msa->nseqs` is its length -/
  names : List String
  /-- `msa->length` -/
  length : Int
  /-- `msa->ncats`, negative when there is no category information -/
  ncats : Int
  /-- `msa->categories` -/
  categories : Option (List Int)
  /-- `msa->idx_offset` -/
  idx_offset : Int
  /-- whether `msa->seqs != NULL` -/
  has_seqs : Bool
  /-- whether `msa->ss != NULL` -/
  has_ss : Bool
  deriving DecidableEq, Repr

/-- Field `msa->nseqs`. -/
def MSA.nseqs (msa : MSA) : Int := msa.names.length

/-- Branch-length estimation modes of a `TreeModel` (`tree_model.h`). -/
inductive branchlens_mode where
  | TM_BRANCHLENS_ALL | TM_SCALE_ONLY | TM_BRANCHLENS_CLOCK | TM_BRANCHLENS_NONE
  deriving DecidableEq, Repr

/-- Bound put on the scale of a subtree (`scale_sub_bound`). -/
inductive scale_bound where
  | LB | UB
  deriving DecidableEq, Repr

/-- Posterior tallies `TreePosteriors`: which tables were allocated. -/
structure TreePosteriors where
  do_bases : Bool
  do_expected_nsubst : Bool
  do_expected_nsubst_tot : Bool
  /-- set by `tl_compute_log_likelihood` -/
  filled : Bool
  deriving DecidableEq, Repr

/-- The model `TreeModel`, as far as `phylo_fit.c` reads and writes it. -/
structure TreeModel where
  tree : TreeNode
  nratecats : Int
  order : Int
  tree_posteriors : Option TreePosteriors
  estimate_branchlens : branchlens_mode
  estimate_ratemat : Bool
  estimate_backgd : Bool
  use_conditionals : Bool
  /-- `mod->subtree_root`, as far as the node is inspected -/
  subtree_root : Option NodeInfo := none
  /-- `mod->scale_sub_bound`, when line 666 or 668 sets it -/
  scale_sub_bound : Option scale_bound := none
  deriving DecidableEq, Repr

/-- The options `struct phyloFit_struct`. -/
structure phyloFit_struct where
  msa : MSA
  output_fname_root : Option String
  log_fname : Option String
  reverse_group_tag : Option String
  root_seqname : Option String
  subtree_name : Option String
  parsimony_cost_fname : Option String
  subst_mod : subst_mod_type
  quiet : Bool
  nratecats : Int
  use_em : Bool
  window_size : Int
  window_shift : Int
  use_conditionals : Bool
  likelihood_only : Bool
  do_bases : Bool
  do_expected_nsubst : Bool
  do_expected_nsubst_tot : Bool
  estimate_backgd : Bool
  estimate_scale_only : Bool
  nonoverlapping : Bool
  gaps_as_bases : Bool
  no_freqs : Bool
  no_rates : Bool
  assume_clock : Bool
  no_branchlens : Bool
  label_categories : Bool
  nsites_threshold : Int
  tree : Option TreeNode
  cm : Option CategoryMap
  cats_to_do_str : Option (List String)
  window_coords : Option (List Int)
  rate_consts : Option (List ℚ)
  gff : Option GFF_Set
  input_mod : Option TreeModel
  init_parsimony : Bool := false
  parsimony_only : Bool := false
  random_init : Bool := false
  do_column_probs : Bool := false
  error_fname : Option String := none
  /-- whether `pf->estimated_models != NULL` -/
  estimated_models : Bool := false
  /-- whether `pf->model_labels != NULL` -/
  model_labels : Bool := false

/-- Functions of other PHAST modules that `run_phyloFit` calls and whose
results it passes on. -/
structure Env where
  /-- `lst_qsort_dbl(l, ASCENDING)` (`lists.c`) -/
  lst_qsort_dbl : List ℚ → List ℚ
  /-- `tm_is_reversible` (`subst_mods.c`) -/
  tm_is_reversible : subst_mod_type → Bool
  /-- `tm_order` (`subst_mods.c`) -/
  tm_order : subst_mod_type → Int
  /-- `tr_new_from_string` (`trees.c`) -/
  tr_new_from_string : String → TreeNode
  /-- `tr_get_node` (`trees.c`) -/
  tr_get_node : TreeNode → String → Option NodeInfo
  /-- `cm_new_from_features` (`category_map.c`) -/
  cm_new_from_features : GFF_Set → CategoryMap
  /-- `cm_get_category_list` (`category_map.c`); `none` when it ends the run -/
  cm_get_category_list : CategoryMap → List String → Option (List Int)
  /-- `str_list_as_int` (`stringsplus.c`); `none` when it ends the run -/
  str_list_as_int : List String → Option (List Int)
  /-- `msa_map_gff_coords` (`msa.c`) -/
  msa_map_gff_coords : MSA → GFF_Set → GFF_Set
  /-- `gff_group` followed by `msa_reverse_compl_feats` -/
  msa_reverse_compl_feats : MSA → GFF_Set → String → MSA × GFF_Set
  /-- `msa_label_categories` (`msa.c`): sets `categories` and `ncats` -/
  msa_label_categories : MSA → GFF_Set → Option CategoryMap → MSA
  /-- `msa_map_seq_to_msa` on the map built by `msa_build_coord_map(msa, 1)` -/
  msa_map_seq_to_msa : MSA → Int → Int

/-! ## Option checks (`run_phyloFit`, lines 420-459) -/

/-- Lines 420-440: the option conflicts, tested in source order. -/
def check_options (pf : phyloFit_struct) : Except Fatal Unit :=
  if pf.use_conditionals && pf.use_em then .error .markov_with_em
  else if pf.likelihood_only && pf.input_mod.isNone then .error .lnl_requires_init_model
  else if pf.input_mod.isSome && pf.tree.isSome then .error .tree_with_init_model
  else if pf.gaps_as_bases && pf.subst_mod != .JC69 && pf.subst_mod != .F81 &&
      pf.subst_mod != .HKY85G && pf.subst_mod != .REV &&
      pf.subst_mod != .UNREST && pf.subst_mod != .SSREV then
    .error .gaps_as_bases_unsupported
  else if (pf.no_freqs || pf.no_rates) && pf.input_mod.isNone then .error .init_model_required
  else if pf.no_freqs && pf.estimate_backgd then .error .no_freqs_and_estimate_freqs
  else .ok ()

/-- Lines 453-459: the explicit rate constants are sorted in place, then
tested; the result is the sorted list left in `pf->rate_consts`. -/
def check_rate_consts (env : Env) (rate_consts : Option (List ℚ)) (nratecats : Int) :
    Except Fatal (Option (List ℚ)) :=
  match rate_consts with
  | none => .ok none
  | some l =>
    let sorted := env.lst_qsort_dbl l
    if sorted.length < 2 then .error .rate_consts_not_positive
    else
      match sorted[0]? with
      | none => .error .bad_access
      | some first =>
        if first ≤ 0 then .error .rate_consts_not_positive
        else if nratecats ≠ (sorted.length : Int) then .error .rate_consts_length
        else .ok (some sorted)

/-! ## Non-overlapping mode and the tree (`run_phyloFit`, lines 461-496) -/

/-- Lines 462-468: non-overlapping mode is expressed through `--do-cats`; the
result is the new `pf->cats_to_do_str`. -/
def setup_nonoverlapping (nonoverlapping : Bool) (cats_to_do_str : Option (List String)) :
    Except Fatal (Option (List String)) :=
  if nonoverlapping then
    if cats_to_do_str.isSome then .error .do_cats_with_nonoverlapping
    else .ok (some ([] ++ ["1"]))
  else .ok cats_to_do_str

/-- The local variables `tree`, `free_tree` and the buffer `tmpchstr` after
lines 470-484. -/
structure TreeSetup where
  tree : TreeNode
  free_tree : Bool
  /-- the string printed into `tmpchstr`, when one was -/
  tmpchstr : Option String
  deriving DecidableEq, Repr

/-- Lines 470-484: the tree to use, built from the sequence names when neither
a tree nor an input model is given. -/
def setup_tree (env : Env) (tree : Option TreeNode) (input_mod : Option TreeModel)
    (msa : MSA) (subst_mod : subst_mod_type) : Except Fatal TreeSetup :=
  match tree with
  | some t => .ok { tree := t, free_tree := false, tmpchstr := none }
  | none =>
    match input_mod with
    | some m => .ok { tree := m.tree, free_tree := false, tmpchstr := none }
    | none =>
      if msa.nseqs = 2 then
        match msa.names[0]?, msa.names[1]? with
        | some n0, some n1 =>
          let s := "(" ++ n0 ++ "," ++ n1 ++ ")"
          .ok { tree := env.tr_new_from_string s, free_tree := true, tmpchstr := some s }
        | _, _ => .error .bad_access
      else if msa.nseqs = 3 && env.tm_is_reversible subst_mod then
        match msa.names[0]?, msa.names[1]?, msa.names[2]? with
        | some n0, some n1, some n2 =>
          let s := "(" ++ n0 ++ ",(" ++ n1 ++ "," ++ n2 ++ "))"
          .ok { tree := env.tr_new_from_string s, free_tree := true, tmpchstr := some s }
        | _, _, _ => .error .bad_access
      else .error .tree_required

/-- Lines 488-496: the id of the leaf named by `--ancestor`, or `-1`.  The
variable `tree` is never `NULL` here (line 483 has ended the run otherwise). -/
def setup_root_leaf (env : Env) (root_seqname : Option String) (tree : TreeNode)
    (subst_mod : subst_mod_type) : Except Fatal Int :=
  match root_seqname with
  | none => .ok (-1)
  | some name =>
    if env.tm_is_reversible subst_mod then .error .ancestor_requires_tree
    else
      match env.tr_get_node tree name with
      | none => .error .ancestor_not_child_of_root
      | some rl =>
        if !rl.parent_is_root then .error .ancestor_not_child_of_root
        else .ok rl.id

/-! ## Labelling the sites (`run_phyloFit`, lines 501-536) -/

/-- The loop `for (i = 0; i < msa->length; i++) msa->categories[i] =
(i % cycle_size) + 1`, entered with the counter `i` and the entries written so
far. -/
def fill_categories (length cycle_size : Int) (i : Int) (categories : List Int) : List Int :=
  if i < length then
    fill_categories length cycle_size (i + 1) (categories ++ [Int.tmod i cycle_size + 1])
  else categories
termination_by (length - i).toNat
decreasing_by omega

/-- Lines 503-536: the alignment and the annotations after the sites have been
labelled, from a GFF or by the cycle of non-overlapping mode. -/
def label_sites (env : Env) (pf : phyloFit_struct) (cm : Option CategoryMap) (msa : MSA) :
    Except Fatal (MSA × Option GFF_Set) :=
  match pf.gff, pf.label_categories with
  | some gff, true =>
    let shifted : MSA × GFF_Set :=
      if msa.idx_offset > 0 then
        ({ msa with idx_offset := 0 },
         { features := gff.features.map fun f =>
             { start := f.start - msa.idx_offset, end_ := f.end_ - msa.idx_offset } })
      else (msa, gff)
    let mapped := env.msa_map_gff_coords shifted.1 shifted.2
    let reversed : MSA × GFF_Set :=
      match pf.reverse_group_tag with
      | some tag => env.msa_reverse_compl_feats shifted.1 mapped tag
      | none => (shifted.1, mapped)
    .ok (env.msa_label_categories reversed.1 reversed.2 cm, some reversed.2)
  | gff, _ =>
    if pf.nonoverlapping && pf.label_categories then
      let cycle_size := env.tm_order pf.subst_mod + 1
      if msa.has_seqs && !msa.has_ss then
        -- `i % cycle_size` is evaluated as soon as the loop is entered
        if cycle_size = 0 ∧ 0 < msa.length then .error .division_by_zero
        else
          .ok ({ msa with categories := some (fill_categories msa.length cycle_size 0 []),
                          ncats := cycle_size }, gff)
      else .error .assert_explicit_seqs
    else .ok (msa, gff)

/-! ## Categories to process (`run_phyloFit`, lines 540-563) -/

/-- The loop `for (i = 0; i <= msa->ncats; i++) lst_push_int(cats_to_do, i)`,
entered with the counter `i` and the list built so far. -/
def push_all_cats (ncats : Int) (i : Int) (cats_to_do : List Int) : List Int :=
  if i ≤ ncats then push_all_cats ncats (i + 1) (cats_to_do ++ [i]) else cats_to_do
termination_by (ncats + 1 - i).toNat
decreasing_by omega

/-- Lines 542-563: the list `cats_to_do`, from `msa->ncats` as it is when line
542 is reached, `pf->cats_to_do_str` and `pf->cm`.  The value `none` is the
`NULL` the variable is initialised with. -/
def setup_cats_to_do (env : Env) (ncats : Int) (cats_to_do_str : Option (List String))
    (cm : Option CategoryMap) : Except Fatal (Option (List Int)) :=
  if ncats < 0 then
    -- the warning of line 544 is printed when cats_to_do_str is not NULL
    .ok (some ([] ++ [-1]))
  else
    match cats_to_do_str with
    | none => .ok (some (push_all_cats ncats 0 []))
    | some strs =>
      match cm with
      | some m =>
        match env.cm_get_category_list m strs with
        | some cats => .ok (some cats)
        | none => .error .collaborator
      | none =>
        match env.str_list_as_int strs with
        | some cats => .ok (some cats)
        | none => .error .collaborator

/-! ## Windows (`run_phyloFit`, lines 564-598) -/

/-- The largest C `int`. -/
def INT_MAX : Int := 2147483647

/-- The smallest C `int`. -/
def INT_MIN : Int := -2147483648

/-- Whether the exact result of an `int` operation is an `int`; when it is not,
C leaves the operation undefined. -/
def in_int_range (v : Int) : Bool := decide (INT_MIN ≤ v ∧ v ≤ INT_MAX)

/-- The loop of lines 569-573, entered with the counter `i` and the list built
so far: it pushes `i` and `min(i + window_size - 1, msa->length)`, then adds
the shift to `i`.  The sums `i + window_size`, `i + window_size - 1` and
`i + window_shift` are `int` operations: one that leaves the `int` range ends
the model with `int_overflow`.  With a shift that is not positive the loop does
not end before such an overflow. -/
def push_windows (length window_size window_shift : Int) (i : Int) (coords : List Int) :
    Except Fatal (List Int) :=
  if _h : i < length then
    if _hs : 0 < window_shift then
      if in_int_range (i + window_size) && in_int_range (i + window_size - 1) &&
          in_int_range (i + window_shift) then
        push_windows length window_size window_shift (i + window_shift)
          (coords ++ [i, min (i + window_size - 1) length])
      else .error .int_overflow
    else .error .no_termination
  else .ok coords
termination_by (length - i).toNat
decreasing_by omega

/-- Lines 565-575: the new `pf->window_coords`, generated from the window size
and shift when a size is given, left as it is otherwise.  The capacity
`msa->length / pf->window_shift + 1` of line 568 is an `int` expression too. -/
def setup_window_coords (length window_size window_shift : Int)
    (window_coords : Option (List Int)) : Except Fatal (Option (List Int)) :=
  if window_size ≠ -1 then
    if window_coords.isSome then .error .windows_and_windows_explicit
    else if window_shift = 0 then .error .division_by_zero
    else if !in_int_range (Int.tdiv length window_shift + 1) then .error .int_overflow
    else (push_windows length window_size window_shift 1 []).map some
  else .ok window_coords

/-- The loop of lines 591-596: both coordinates of every pair go through the
coordinate map. -/
def map_window_coords (f : Int → Int) : List Int → Except Fatal (List Int)
  | [] => .ok []
  | [_] => .error .bad_access
  | b :: e :: rest => (map_window_coords f rest).map fun tl => f b :: f e :: tl

/-- Lines 576-598: with windows, an output root is required and the
coordinates are mapped to the frame of the alignment. -/
def setup_window_map (env : Env) (msa : MSA) (output_fname_root : Option String)
    (window_coords : Option (List Int)) : Except Fatal (Option (List Int)) :=
  match window_coords with
  | none => .ok none
  | some coords =>
    if output_fname_root.isNone then .error .windows_need_output_root
    else (map_window_coords (env.msa_map_seq_to_msa msa) coords).map some

/-! ## The units (`run_phyloFit`, lines 600-622 and 890-893) -/

/-- One entry into the body of the per-category loop (line 619). -/
structure WorkUnit where
  /-- the loop variable `win` -/
  win : Int
  /-- the category `cat = lst_get_int(cats_to_do, i)` -/
  cat : Int
  deriving DecidableEq, Repr

/-- The loop of line 618 for one value of `win`: one unit per entry of
`cats_to_do`, in list order. -/
def category_loop (cats_to_do : List Int) (win : Int) : List WorkUnit :=
  cats_to_do.map fun cat => { win := win, cat := cat }

/-- The loop of line 603 over a list of window coordinates, entered at index
`win` with the coordinates from that index on: a pair with a negative bound is
skipped by the `continue` of line 611. -/
def window_loop (cats_to_do : List Int) : Int → List Int → Except Fatal (List WorkUnit)
  | _, [] => .ok []
  | _, [_] => .error .bad_access
  | win, win_beg :: win_end :: rest =>
    if win_beg < 0 || win_end < 0 then window_loop cats_to_do (win + 2) rest
    else (window_loop cats_to_do (win + 2) rest).map fun tl => category_loop cats_to_do win ++ tl

/-- Lines 603-622: the units whose body is entered, in order, when no unit ends
the run.  Without windows the bound of the outer loop is 1 and its body runs
once, with `win = 0`. -/
def enumerate_units (window_coords : Option (List Int)) (cats_to_do : Option (List Int)) :
    Except Fatal (List WorkUnit) :=
  match cats_to_do with
  | none => .error .bad_access
  | some cats =>
    match window_coords with
    | none => .ok (category_loop cats 0)
    | some coords => window_loop cats 0 coords

/-! ## Pruning (`run_phyloFit`, lines 690-694) -/

/-- Lines 693-694: the test made on the names `tm_prune` returned; the division
is the truncating one of C. -/
def check_pruned (pruned_names : List String) (old_nnodes : Int) : Except Fatal Unit :=
  if (pruned_names.length : Int) = Int.tdiv (old_nnodes + 1) 2 then .error .no_match_for_leaves
  else .ok ()

/-! ## The set-up of a run (`run_phyloFit`, lines 411-598) -/

/-- State of `run_phyloFit` when the loop of line 603 is reached. -/
structure Setup where
  /-- the files opened by lines 411-418 -/
  opened : List String
  msa : MSA
  gff : Option GFF_Set
  cm : Option CategoryMap
  free_cm : Bool
  estimate_scale_only : Bool
  rate_consts : Option (List ℚ)
  cats_to_do_str : Option (List String)
  free_cats_to_do_str : Bool
  tree : TreeSetup
  root_leaf_id : Int
  cats_to_do : Option (List Int)
  window_coords : Option (List Int)
  free_window_coords : Bool

/-- Lines 411-418: the log file (unless it is `-`, standard error) and the
parsimony-cost file are opened. -/
def open_logs (pf : phyloFit_struct) : List String :=
  (match pf.log_fname with
   | some f => if f = "-" then [] else [f]
   | none => []) ++
  (match pf.parsimony_cost_fname with
   | some f => [f]
   | none => [])

/-- Lines 411-598 of `run_phyloFit`, in source order.  Lines 498-499 (upper
case, removal of `N` from the alphabet) change no field of the model. -/
def run_phyloFit_setup (env : Env) (pf : phyloFit_struct) : Except Fatal Setup := do
  let opened := open_logs pf
  check_options pf
  let cm := if pf.gff.isSome && pf.cm.isNone then pf.gff.map env.cm_new_from_features else pf.cm
  let free_cm := pf.gff.isSome && pf.cm.isNone
  let estimate_scale_only := pf.estimate_scale_only || pf.subtree_name.isSome
  let rate_consts ← check_rate_consts env pf.rate_consts pf.nratecats
  let cats_to_do_str ← setup_nonoverlapping pf.nonoverlapping pf.cats_to_do_str
  let tree ← setup_tree env pf.tree pf.input_mod pf.msa pf.subst_mod
  let root_leaf_id ← setup_root_leaf env pf.root_seqname tree.tree pf.subst_mod
  let labelled ← label_sites env pf cm pf.msa
  let cats_to_do ← setup_cats_to_do env labelled.1.ncats cats_to_do_str cm
  let generated ← setup_window_coords labelled.1.length pf.window_size pf.window_shift
    pf.window_coords
  let window_coords ← setup_window_map env labelled.1 pf.output_fname_root generated
  return { opened := opened, msa := labelled.1, gff := labelled.2, cm := cm, free_cm := free_cm,
           estimate_scale_only := estimate_scale_only, rate_consts := rate_consts,
           cats_to_do_str := cats_to_do_str, free_cats_to_do_str := pf.nonoverlapping,
           tree := tree, root_leaf_id := root_leaf_id, cats_to_do := cats_to_do,
           window_coords := window_coords,
           free_window_coords := decide (pf.window_size ≠ -1) }

/-- Lines 411-622 of `run_phyloFit`: the set-up, then the units entered. -/
def run_phyloFit_units (env : Env) (pf : phyloFit_struct) : Except Fatal (List WorkUnit) := do
  let s ← run_phyloFit_setup env pf
  enumerate_units s.window_coords s.cats_to_do

/-! ## Posterior statistics (`print_post_prob_stats`, lines 172-352) -/

/-- Lines 172-179, `set_output_fname`: root, then `.<cat>` unless the category
is `-1`, then the suffix. -/
def set_output_fname (root : String) (cat : Int) (suffix : String) : String :=
  let fname := root
  let fname := if cat ≠ -1 then fname ++ "." ++ toString cat else fname
  fname ++ suffix

/-- What `print_post_prob_stats` does to the model and to the file system. -/
inductive Event where
  /-- `tl_new_tree_posteriors` -/
  | alloc_posteriors
  /-- `tl_compute_log_likelihood` with the posteriors -/
  | compute_posteriors
  /-- `fopen_fname(name, "w+")` -/
  | fopen (name : String)
  /-- the table written to the file, then `fclose` -/
  | write_and_close (name : String)
  /-- `tl_free_tree_posteriors` -/
  | free_posteriors
  deriving DecidableEq, Repr

/-- One of the three output sections (lines 214-267, 269-301, 303-347): when
the option is set, the file is named, opened, written and closed. -/
def post_prob_section (enabled : Bool) (output_fname_root : String) (cat : Int)
    (suffix : String) : List Event :=
  if enabled then
    let fname := set_output_fname output_fname_root cat suffix
    [.fopen fname, .write_and_close fname]
  else []

/-- Lines 190-352, `print_post_prob_stats`: the events up to the end of the
call, and either the model on return or the assertion that failed.  The
contents of the tables are not modelled. -/
def print_post_prob_stats (mod : TreeModel) (output_fname_root : String)
    (do_bases do_expected_nsubst do_expected_nsubst_tot : Bool) (cat : Int) :
    List Event × Except Fatal TreeModel :=
  if mod.nratecats ≠ 1 then ([], .error .assert_nratecats)
  else if mod.tree_posteriors.isSome then ([], .error .assert_tree_posteriors)
  else
    let allocated : TreeModel :=
      { mod with
        tree_posteriors := some ⟨do_bases, do_expected_nsubst, do_expected_nsubst_tot, false⟩ }
    let computed : TreeModel :=
      { allocated with tree_posteriors :=
          allocated.tree_posteriors.map fun p => { p with filled := true } }
    let files :=
      post_prob_section do_bases output_fname_root cat ".postprob" ++
      post_prob_section do_expected_nsubst output_fname_root cat ".expsub" ++
      post_prob_section do_expected_nsubst_tot output_fname_root cat ".exptotsub"
    ([.alloc_posteriors, .compute_posteriors] ++ files ++ [.free_posteriors],
     .ok { computed with tree_posteriors := none })

/-! ## The window summary (`print_window_summary`, lines 355-380) -/

/-- One whitespace-separated field of the window summary: every conversion of
the `fprintf` calls of `print_window_summary` (`%5s`, ` %8d`, ` %6.4f`, ...)
writes one word or one number, and they are separated by blanks. -/
inductive SummaryField where
  /-- a column title of the header -/
  | title (s : String)
  /-- `win/2+1` -/
  | win_index (v : Int)
  /-- `lst_get_int(window_coords, win)` -/
  | win_beg (v : Int)
  /-- `lst_get_int(window_coords, win+1)` -/
  | win_end (v : Int)
  /-- the category `cat` -/
  | category (v : Int)
  /-- the frequency of G plus that of C in `mod->backgd_freqs` -/
  | backgd_gc
  /-- the entry `gc[j]` -/
  | seq_gc (j : Int)
  /-- the value `cpg` -/
  | cpg
  /-- the value `ninf_sites` -/
  | ninf_sites (v : Nat)
  /-- the value `tr_total_len(mod->tree)` -/
  | total_len
  deriving DecidableEq, Repr

/-- The loop of line 375, `for (j = 0; j < nseqs; j++) fprintf(WINDOWF,
" %6.4f", gc[j])`, entered with the counter `j` and the fields written so
far. -/
def print_seq_gc (nseqs : Int) (j : Int) (fields : List SummaryField) : List SummaryField :=
  if j < nseqs then print_seq_gc nseqs (j + 1) (fields ++ [.seq_gc j]) else fields
termination_by (nseqs - j).toNat
decreasing_by omega

/-- Lines 355-380, `print_window_summary`: the fields of the row written, the
header row when `header_only` is set. -/
def print_window_summary (window_coords : Option (List Int)) (win cat : Int)
    (ninf_sites : Nat) (nseqs : Int) (header_only : Bool) : Except Fatal (List SummaryField) :=
  if header_only then
    .ok ([.title "win", .title "beg", .title "end", .title "cat"] ++ [.title "GC"] ++
      [.title "CpG"] ++ [.title "ninf"] ++ [.title "t"])
  else
    match window_coords with
    | none => .error .bad_access
    | some coords =>
      if win < 0 then .error .bad_access
      else
        match coords[win.toNat]?, coords[win.toNat + 1]? with
        | some win_beg, some win_end =>
          .ok (print_seq_gc nseqs 0
                ([.win_index (Int.tdiv win 2 + 1), .win_beg win_beg, .win_end win_end,
                  .category cat] ++ [.backgd_gc]) ++
              [.cpg] ++ [.ninf_sites ninf_sites] ++ [.total_len])
        | _, _ => .error .bad_access

/-! ## One unit (`run_phyloFit`, lines 619-890) -/

/-- Functions of other PHAST modules called in the body of the per-category
loop. -/
structure UnitEnv where
  /-- `tm_new` on a copy of the tree (line 626), from the tree, the model kind,
  the number of rate categories, the rate constants and the root leaf id -/
  tm_new : TreeNode → subst_mod_type → Int → Option (List ℚ) → Int → TreeModel
  /-- `tm_reinit` (line 640) of the input model -/
  tm_reinit : TreeModel → subst_mod_type → Int → Option (List ℚ) → TreeModel
  /-- `str_root(s, ':')` (`stringsplus.c`) -/
  str_root : String → String
  /-- `str_suffix(s, ':')` (`stringsplus.c`) -/
  str_suffix : String → String
  /-- `tr_get_node` (`trees.c`) -/
  tr_get_node : TreeNode → String → Option NodeInfo
  /-- `tm_prune` (`tree_model.c`): the pruned model and the names pruned -/
  tm_prune : TreeModel → MSA → TreeModel × List String
  /-- `msa_ninformative_sites` (`msa.c`), an `unsigned int` -/
  msa_ninformative_sites : MSA → Int → Nat
  /-- `cm_get_feature_unique` (`category_map.c`) -/
  cm_get_feature_unique : CategoryMap → Int → String

/-- Lines 625-642: the model of the unit, new, or the input model as it stands
when the unit starts, reinitialised unless only the likelihood is wanted. -/
def unit_model (uenv : UnitEnv) (pf : phyloFit_struct) (s : Setup) : TreeModel :=
  match pf.input_mod with
  | none => uenv.tm_new s.tree.tree pf.subst_mod pf.nratecats s.rate_consts s.root_leaf_id
  | some input_mod =>
    if pf.likelihood_only then input_mod
    else uenv.tm_reinit input_mod pf.subst_mod pf.nratecats s.rate_consts

/-- Lines 657-672: the subtree named by `--subtree`, with its optional suffix
`loss` or `gain`. -/
def configure_subtree (uenv : UnitEnv) (subtree_name : Option String) (mod : TreeModel) :
    Except Fatal TreeModel :=
  match subtree_name with
  | none => .ok mod
  | some name =>
    let s1 := uenv.str_root name
    let s2 := uenv.str_suffix name
    match uenv.tr_get_node mod.tree s1 with
    | none => .error .no_subtree_node
    | some node =>
      let rooted := { mod with subtree_root := some node }
      if s2.length > 0 then
        if s2 = "loss" then .ok { rooted with scale_sub_bound := some .LB }
        else if s2 = "gain" then .ok { rooted with scale_sub_bound := some .UB }
        else .error .unrecognized_suffix
      else .ok rooted

/-- Lines 648-685: the estimation switches of the unit's model;
`estimate_scale_only` is `pf->estimate_scale_only` as lines 447-451 leave it. -/
def configure_estimation (uenv : UnitEnv) (pf : phyloFit_struct) (estimate_scale_only : Bool)
    (mod : TreeModel) : Except Fatal TreeModel := do
  let mod := { mod with use_conditionals := pf.use_conditionals }
  let mod ←
    if estimate_scale_only || pf.estimate_backgd || pf.no_rates || pf.assume_clock then do
      let mod ←
        if estimate_scale_only then
          configure_subtree uenv pf.subtree_name
            { mod with estimate_branchlens := .TM_SCALE_ONLY }
        else if pf.assume_clock then
          pure { mod with estimate_branchlens := .TM_BRANCHLENS_CLOCK }
        else pure mod
      let mod := if pf.no_rates then { mod with estimate_ratemat := false } else mod
      pure { mod with estimate_backgd := pf.estimate_backgd }
    else pure mod
  pure (if pf.no_branchlens then { mod with estimate_branchlens := .TM_BRANCHLENS_NONE }
        else mod)

/-- Lines 731-732, `if (ninf_sites < pf->nsites_threshold)`: `ninf_sites` is an
`unsigned int` (line 623) and the threshold an `int`, so C converts the
threshold to `unsigned int` (modulo `2^32`) before it compares. -/
def insufficient_sites (ninf_sites : Nat) (nsites_threshold : Int) : Bool :=
  decide ((ninf_sites : Int) % 2 ^ 32 < nsites_threshold % 2 ^ 32)

/-- Lines 840-858: the name of the model file of a unit (the label of the
model when there is no output root). -/
def model_fname (uenv : UnitEnv) (output_fname_root : Option String) (windowing : Bool)
    (win cat : Int) (nonoverlapping : Bool) (cm : Option CategoryMap) : String :=
  let mod_fname := match output_fname_root with
    | some root => root
    | none => ""
  let mod_fname :=
    if windowing then
      (if mod_fname.length ≠ 0 then mod_fname ++ "." else mod_fname) ++ "win-" ++
        toString (Int.tdiv win 2 + 1)
    else mod_fname
  let mod_fname :=
    if cat ≠ -1 ∧ nonoverlapping = false then
      (if mod_fname.length ≠ 0 then mod_fname ++ "." else mod_fname) ++
        (match cm with
         | some m => uenv.cm_get_feature_unique m cat
         | none => toString cat)
    else mod_fname
  if output_fname_root.isSome then mod_fname ++ ".mod" else mod_fname

/-- What the body of the per-category loop does after the model is pruned. -/
inductive UnitEvent where
  /-- lines 733-736: the unit is skipped for lack of informative sites -/
  | skipped
  /-- lines 740-742: branch lengths by parsimony, the cost logged -/
  | parsimony_cost
  /-- lines 752-759: the likelihood of the model is computed -/
  | likelihood_computed
  /-- lines 765-775: the column probabilities are written -/
  | colprobs_written (fname : String)
  /-- line 783: sufficient statistics are extracted -/
  | stats_extracted
  /-- lines 788-793: the sequences of a very large alignment are freed -/
  | seqs_discarded
  /-- line 797: random initial parameters -/
  | params_random
  /-- line 799: initial parameters from the input model -/
  | params_from_model
  /-- line 801: default initial parameters -/
  | params_default
  /-- line 804: branch lengths of the parameters by parsimony -/
  | branchlens_parsimony
  /-- line 817: the sufficient statistics are compacted -/
  | stats_compacted
  /-- line 831: `tm_fit_em` -/
  | fitted_em
  /-- line 833: `tm_fit` -/
  | fitted
  /-- line 836: `tm_variance` -/
  | variance_written (fname : String)
  /-- lines 863-865: the model is written to the file named -/
  | model_written (fname : String)
  /-- line 868: a copy of the model is kept -/
  | model_kept
  /-- line 871: the label of the model is kept -/
  | label_kept (label : String)
  /-- line 877: `print_post_prob_stats`, with its events -/
  | posterior_stats (events : List Event)
  /-- line 885: a row of the window summary -/
  | window_row (fields : List SummaryField)
  deriving DecidableEq, Repr

/-- Lines 746-838: the likelihood of the model, or its fit; `i` is the index
of the category in `cats_to_do`.  The release of inherited background
frequencies (lines 806-812) is left out. -/
def score_or_fit (pf : phyloFit_struct) (msa : MSA) (i : Int) : Except Fatal (List UnitEvent) :=
  if pf.likelihood_only then
    if pf.do_column_probs then
      match pf.output_fname_root with
      | none => .error .column_probs_need_output
      | some root => .ok [.likelihood_computed, .colprobs_written (root ++ ".colprobs")]
    else .ok [.likelihood_computed]
  else
    .ok ((if !msa.has_ss then
            [.stats_extracted] ++ (if msa.length > 1000000 then [.seqs_discarded] else [])
          else []) ++
         [if pf.random_init then .params_random
          else if pf.input_mod.isSome then .params_from_model
          else .params_default] ++
         (if pf.init_parsimony then [.branchlens_parsimony] else []) ++
         (if i = 0 then [.stats_compacted] else []) ++
         [if pf.use_em then .fitted_em else .fitted] ++
         (match pf.error_fname with
          | some f => [.variance_written f]
          | none => []))

/-- Lines 874-881: the posterior statistics of the unit, written under the
output root and the category. -/
def unit_posteriors (pf : phyloFit_struct) (mod : TreeModel) (cat : Int) :
    Except Fatal (List UnitEvent) :=
  match pf.output_fname_root with
  | none => .ok []
  | some root =>
    if pf.do_bases || pf.do_expected_nsubst || pf.do_expected_nsubst_tot then
      match print_post_prob_stats mod root pf.do_bases pf.do_expected_nsubst
          pf.do_expected_nsubst_tot cat with
      | (events, .ok _) => .ok [.posterior_stats events]
      | (_, .error e) => .error e
    else .ok []

/-- Lines 840-886: the outputs of a unit once its model is scored or fitted. -/
def unit_output (uenv : UnitEnv) (pf : phyloFit_struct) (s : Setup) (mod : TreeModel)
    (msa : MSA) (win cat : Int) (ninf_sites : Nat) : Except Fatal (List UnitEvent) := do
  let mod_fname := model_fname uenv pf.output_fname_root s.window_coords.isSome win cat
    pf.nonoverlapping s.cm
  let written : List UnitEvent :=
    if pf.output_fname_root.isSome then [.model_written mod_fname] else []
  let kept : List UnitEvent :=
    (if pf.estimated_models then [.model_kept] else []) ++
    (if pf.model_labels then [.label_kept mod_fname] else [])
  let posteriors ← unit_posteriors pf mod cat
  let summary ←
    if s.window_coords.isSome then
      (print_window_summary s.window_coords win cat ninf_sites msa.nseqs false).map
        fun fields => [UnitEvent.window_row fields]
    else pure []
  pure (written ++ kept ++ posteriors ++ summary)

/-- Lines 619-890: the body of the per-category loop for the unit of window
index `win` and category `cat`, the `i`-th of `cats_to_do`, on the alignment
`msa` of the window (the whole alignment without windows).  The settings that
only pass through to other modules (`noopt_arg`, `eqfreq_sym`, `bound_arg`,
ignored branches, alternative models) and the messages are left out. -/
def process_unit (uenv : UnitEnv) (pf : phyloFit_struct) (s : Setup) (msa : MSA)
    (win i cat : Int) : Except Fatal (List UnitEvent) := do
  let mod ← configure_estimation uenv pf s.estimate_scale_only (unit_model uenv pf s)
  let old_nnodes : Int := mod.tree.nnodes
  let pruned := uenv.tm_prune mod msa
  check_pruned pruned.2 old_nnodes
  let ninf_sites := uenv.msa_ninformative_sites msa cat
  if insufficient_sites ninf_sites pf.nsites_threshold then pure [.skipped]
  else
    let parsimony : List UnitEvent := if pf.init_parsimony then [.parsimony_cost] else []
    if pf.init_parsimony && pf.parsimony_only then pure parsimony
    else do
      let fit ← score_or_fit pf msa i
      let output ← unit_output uenv pf s pruned.1 msa win cat ninf_sites
      pure (parsimony ++ fit ++ output)

/-! ## Vocabulary of the claims -/

/-- A coordinate list read as the list of its (begin, end) pairs. -/
def window_pairs : List Int → List (Int × Int)
  | b :: e :: rest => (b, e) :: window_pairs rest
  | _ => []

/-- Number of window pairs whose two bounds are both non-negative. -/
def non_gap_pairs (coords : List Int) : Nat :=
  ((window_pairs coords).filter fun p => decide (0 ≤ p.1 ∧ 0 ≤ p.2)).length

/-- The unit count as the specification words it: the number of categories
times `max(1, number of non-gap window pairs)`, no window list counting as no
pair. -/
def specified_unit_count (window_coords : Option (List Int)) (cats_to_do : List Int) : Nat :=
  cats_to_do.length * max 1 (match window_coords with
    | none => 0
    | some coords => non_gap_pairs coords)

/-- The model file name as the specification words it: the root, then
`.win-<k>` with `k = win/2 + 1` when windowing is active, then `.<category>`
when the category is not `-1` and non-overlapping mode is off, then `.mod`. -/
def specified_model_fname (root : String) (windowing : Bool) (win cat : Int)
    (nonoverlapping : Bool) : String :=
  root ++ (if windowing then ".win-" ++ toString (Int.tdiv win 2 + 1) else "") ++
    (if cat ≠ -1 ∧ nonoverlapping = false then "." ++ toString cat else "") ++ ".mod"

/-- The files that the posterior statistics of a unit open, in order. -/
def posterior_files : List UnitEvent → List String
  | [] => []
  | .posterior_stats events :: rest =>
    events.filterMap (fun e => match e with
      | .fopen name => some name
      | _ => none) ++ posterior_files rest
  | _ :: rest => posterior_files rest

/-- The model files that a unit writes, in order. -/
def model_files : List UnitEvent → List String
  | [] => []
  | .model_written fname :: rest => fname :: model_files rest
  | _ :: rest => model_files rest

/-- The name of a posterior-statistics file as the specification words it for
a run with windows: the root, `.win-<k>`, then `.<c>` when the category is
not `-1`, then the format suffix. -/
def specified_posterior_fname (root : String) (k cat : Int) (suffix : String) : String :=
  root ++ ".win-" ++ toString k ++ (if cat ≠ -1 then "." ++ toString cat else "") ++ suffix

/-- An options value with every flag off and every optional input absent,
for the alignment given. -/
def default_options (msa : MSA) : phyloFit_struct where
  msa := msa
  output_fname_root := some "phyloFit"
  log_fname := none
  reverse_group_tag := none
  root_seqname := none
  subtree_name := none
  parsimony_cost_fname := none
  subst_mod := .REV
  quiet := false
  nratecats := 1
  use_em := false
  window_size := -1
  window_shift := -1
  use_conditionals := false
  likelihood_only := false
  do_bases := false
  do_expected_nsubst := false
  do_expected_nsubst_tot := false
  estimate_backgd := false
  estimate_scale_only := false
  nonoverlapping := false
  gaps_as_bases := false
  no_freqs := false
  no_rates := false
  assume_clock := false
  no_branchlens := false
  label_categories := true
  nsites_threshold := 50
  tree := none
  cm := none
  cats_to_do_str := none
  window_coords := none
  rate_consts := none
  gff := none
  input_mod := none

/-- An alignment of the two sequences `a` and `b`, of the length given,
without category information. -/
def two_seq_msa (length : Int) : MSA where
  names := ["a", "b"]
  length := length
  ncats := -1
  categories := none
  idx_offset := 0
  has_seqs := true
  has_ss := false

/-- A model on the tree `(a,b)` with the number of rate categories given and
no posterior tallies. -/
def two_leaf_model (nratecats : Int) : TreeModel where
  tree := .internal (.leaf "a") (.leaf "b")
  nratecats := nratecats
  order := 0
  tree_posteriors := none
  estimate_branchlens := .TM_BRANCHLENS_ALL
  estimate_ratemat := true
  estimate_backgd := false
  use_conditionals := false

/-- An alignment of the three sequences `a`, `b` and `c`, of the length given,
without category information. -/
def three_seq_msa (length : Int) : MSA where
  names := ["a", "b", "c"]
  length := length
  ncats := -1
  categories := none
  idx_offset := 0
  has_seqs := true
  has_ss := false

/-! ## A sample environment -/

/-- Collaborators simple enough to evaluate: the sort is insertion sort, the
tree parser keeps the string as the name of a leaf, literal categories are
decimal numbers, the coordinate map is the identity. -/
def sample_env : Env where
  lst_qsort_dbl := List.insertionSort (· ≤ ·)
  tm_is_reversible := fun m => m != .UNREST
  tm_order := fun _ => 0
  tr_new_from_string := fun s => .leaf s
  tr_get_node := fun _ _ => none
  cm_new_from_features := fun _ => { tag := 0 }
  cm_get_category_list := fun _ strs => strs.mapM fun s => s.toInt?
  str_list_as_int := fun strs => strs.mapM fun s => s.toInt?
  msa_map_gff_coords := fun _ g => g
  msa_reverse_compl_feats := fun m g _ => (m, g)
  msa_label_categories := fun m _ _ => m
  msa_map_seq_to_msa := fun _ i => i

/-- The sample environment with models of order 2 (codon-like tuples of three
columns). -/
def order2_env : Env := { sample_env with tm_order := fun _ => 2 }

/-- Collaborators of the unit body simple enough to evaluate: every model is
the two-leaf model with the number of rate categories asked for, nothing is
pruned, every unit has 100 informative sites. -/
def sample_unit_env : UnitEnv where
  tm_new := fun _ _ nratecats _ _ => two_leaf_model nratecats
  tm_reinit := fun m _ _ _ => m
  str_root := fun s => s
  str_suffix := fun _ => ""
  tr_get_node := fun _ _ => none
  tm_prune := fun m _ => (m, [])
  msa_ninformative_sites := fun _ _ => 100
  cm_get_feature_unique := fun _ cat => toString cat

/-- The state at line 603 for the two sequences `a`, `b`, the category list
`[-1]` and the window list given. -/
def sample_setup (window_coords : Option (List Int)) : Setup where
  opened := []
  msa := two_seq_msa 250
  gff := none
  cm := none
  free_cm := false
  estimate_scale_only := false
  rate_consts := none
  cats_to_do_str := none
  free_cats_to_do_str := false
  tree := { tree := .internal (.leaf "a") (.leaf "b"), free_tree := true,
            tmpchstr := some "(a,b)" }
  root_leaf_id := -1
  cats_to_do := some [-1]
  window_coords := window_coords
  free_window_coords := false

end PhyloFit

/-! # Theorems -/

namespace PhyloFit

/-! ## Sequencing -/

/-- A sequence of two steps fails with the error of line 483 only if one of
the steps does. -/
theorem bind_ne_tree_required {α β : Type} (x : Except Fatal α) (f : α → Except Fatal β)
    (hx : x ≠ .error .tree_required) (hf : ∀ a, x = .ok a → f a ≠ .error .tree_required) :
    (x >>= f) ≠ .error .tree_required := by
  cases x with
  | error e => simpa [bind, Except.bind] using hx
  | ok a => exact hf a rfl

/-- A sequence of two steps that ends normally ran both steps normally. -/
theorem bind_eq_ok {α β : Type} (x : Except Fatal α) (f : α → Except Fatal β) (b : β)
    (h : (x >>= f) = .ok b) : ∃ a, x = .ok a ∧ f a = .ok b := by
  cases x with
  | error e => cases h
  | ok a => exact ⟨a, rfl, h⟩

/-- When the set-up ends normally, its category list is the one lines 542-563
build from the labelled alignment, the restriction and the category map it
holds. -/
theorem run_phyloFit_setup_cats (env : Env) (pf : phyloFit_struct) (s : Setup)
    (h : run_phyloFit_setup env pf = .ok s) :
    setup_cats_to_do env s.msa.ncats s.cats_to_do_str s.cm = .ok s.cats_to_do := by
  unfold run_phyloFit_setup at h
  simp only [] at h
  obtain ⟨_, _, h⟩ := bind_eq_ok _ _ _ h
  obtain ⟨_, _, h⟩ := bind_eq_ok _ _ _ h
  obtain ⟨_, _, h⟩ := bind_eq_ok _ _ _ h
  obtain ⟨_, _, h⟩ := bind_eq_ok _ _ _ h
  obtain ⟨_, _, h⟩ := bind_eq_ok _ _ _ h
  obtain ⟨_, _, h⟩ := bind_eq_ok _ _ _ h
  obtain ⟨cats, hcats, h⟩ := bind_eq_ok _ _ _ h
  obtain ⟨_, _, h⟩ := bind_eq_ok _ _ _ h
  obtain ⟨_, _, h⟩ := bind_eq_ok _ _ _ h
  cases h
  exact hcats

/-! ## Categories to process -/

/-- The push loop, entered at `i` with `n` values left up to `ncats`, appends
`i, i + 1, ..., i + n - 1` to the list. -/
theorem push_all_cats_eq (ncats : Int) (n : Nat) :
    ∀ (i : Int) (acc : List Int), ncats + 1 - i = n →
      push_all_cats ncats i acc = acc ++ (List.range n).map fun (k : Nat) => i + (k : Int) := by
  induction n with
  | zero =>
    intro i acc h
    rw [push_all_cats, if_neg (by omega)]
    simp
  | succ n ih =>
    intro i acc h
    rw [push_all_cats, if_pos (by omega), ih (i + 1) (acc ++ [i]) (by push_cast at h; omega)]
    rw [List.range_succ_eq_map, List.map_cons, List.map_map, List.append_assoc]
    simp only [List.singleton_append, Nat.cast_zero, add_zero, List.cons.injEq, true_and,
      List.append_cancel_left_eq]
    apply List.map_congr_left
    intro k _
    simp only [Function.comp_apply, Nat.cast_succ]
    ring

/-- The push loop started at 0 with the empty list yields `0, 1, ..., ncats`. -/
theorem push_all_cats_zero (ncats : Int) (h : 0 ≤ ncats) :
    push_all_cats ncats 0 [] = (List.range (ncats.toNat + 1)).map fun (k : Nat) => (k : Int) := by
  rw [push_all_cats_eq ncats (ncats.toNat + 1) 0 [] (by push_cast; omega)]
  simp

/-- C1: when `msa->ncats < 0` at line 542, the list of categories to process is
exactly `[-1]`, whatever the category restriction and the category map are;
so it is in every run whose set-up ends normally with such an alignment. -/
theorem C1_no_categories_pool_all (env : Env) (ncats : Int)
    (cats_to_do_str : Option (List String)) (cm : Option CategoryMap) (h : ncats < 0) :
    setup_cats_to_do env ncats cats_to_do_str cm = .ok (some [-1]) ∧
    ∀ (pf : phyloFit_struct) (s : Setup), run_phyloFit_setup env pf = .ok s →
      s.msa.ncats = ncats → s.cats_to_do = some [-1] := by
  have hstage : ∀ strs m, setup_cats_to_do env ncats strs m = .ok (some [-1]) := by
    intro strs m
    simp [setup_cats_to_do, h]
  refine ⟨hstage _ _, ?_⟩
  intro pf s hs hn
  have := run_phyloFit_setup_cats env pf s hs
  rw [hn, hstage] at this
  exact (Except.ok.inj this).symm

/-- C1 at `ncats = -1`, with a restriction naming two categories and no map. -/
theorem C1_no_categories_pool_all_witness :
    (-1 : Int) < 0 ∧
    setup_cats_to_do sample_env (-1) (some ["cds", "7"]) none = .ok (some [-1]) ∧
    ∀ (pf : phyloFit_struct) (s : Setup), run_phyloFit_setup sample_env pf = .ok s →
      s.msa.ncats = -1 → s.cats_to_do = some [-1] :=
  ⟨by decide, C1_no_categories_pool_all sample_env (-1) (some ["cds", "7"]) none (by decide)⟩

/-- C2: when `msa->ncats >= 0` and there is no category restriction, the list
of categories to process is `0, 1, ..., ncats` in increasing order: it has
`ncats + 1` entries, no duplicates, and contains `ncats`; so it is in every
run whose set-up ends normally with such an alignment and no restriction. -/
theorem C2_all_categories (env : Env) (ncats : Int) (cm : Option CategoryMap)
    (h : 0 ≤ ncats) :
    ∃ cats : List Int,
      setup_cats_to_do env ncats none cm = .ok (some cats) ∧
      cats = (List.range (ncats.toNat + 1)).map (fun (k : Nat) => (k : Int)) ∧
      (cats.length : Int) = ncats + 1 ∧
      (∀ k : Nat, k < cats.length → cats[k]? = some (k : Int)) ∧
      cats.Sorted (· < ·) ∧ cats.Nodup ∧ ncats ∈ cats ∧
      ∀ (pf : phyloFit_struct) (s : Setup), run_phyloFit_setup env pf = .ok s →
        s.msa.ncats = ncats → s.cats_to_do_str = none → s.cats_to_do = some cats := by
  have hstage : ∀ m, setup_cats_to_do env ncats none m =
      .ok (some ((List.range (ncats.toNat + 1)).map (fun (k : Nat) => (k : Int)))) := by
    intro m
    simp [setup_cats_to_do, not_lt.mpr h, push_all_cats_zero ncats h]
  refine ⟨_, hstage cm, rfl, ?_, ?_, ?_, ?_, ?_, ?_⟩
  · simp only [List.length_map, List.length_range]; push_cast; omega
  · intro k hk
    simp only [List.length_map, List.length_range] at hk
    simp [List.getElem?_map, List.getElem?_range hk]
  · have hs : (List.range (ncats.toNat + 1)).Sorted (· < ·) := List.sorted_lt_range _
    exact List.Pairwise.map _ (fun a b hab => by exact_mod_cast hab) hs
  · exact (List.nodup_range _).map (fun a b hab => by exact_mod_cast hab)
  · exact List.mem_map.mpr ⟨ncats.toNat, List.mem_range.mpr (by omega), by omega⟩
  · intro pf s hs hn hstr
    have := run_phyloFit_setup_cats env pf s hs
    rw [hn, hstr, hstage] at this
    exact (Except.ok.inj this).symm

/-- C2 at `ncats = 3`: the list is `[0, 1, 2, 3]`. -/
theorem C2_all_categories_witness :
    (0 : Int) ≤ 3 ∧ ∃ cats : List Int,
      setup_cats_to_do sample_env 3 none none = .ok (some cats) ∧
      cats = (List.range ((3 : Int).toNat + 1)).map (fun (k : Nat) => (k : Int)) ∧
      (cats.length : Int) = 3 + 1 ∧
      (∀ k : Nat, k < cats.length → cats[k]? = some (k : Int)) ∧
      cats.Sorted (· < ·) ∧ cats.Nodup ∧ (3 : Int) ∈ cats ∧
      ∀ (pf : phyloFit_struct) (s : Setup), run_phyloFit_setup sample_env pf = .ok s →
        s.msa.ncats = 3 → s.cats_to_do_str = none → s.cats_to_do = some cats :=
  ⟨by decide, C2_all_categories sample_env 3 none (by decide)⟩

/-! ## The units entered -/

/-- One category loop enters as many units as there are categories. -/
theorem category_loop_length (cats : List Int) (win : Int) :
    (category_loop cats win).length = cats.length := by
  simp [category_loop]

/-- Over a list of `2 * n` coordinates the window loop ends normally and enters
as many units as categories times non-gap pairs. -/
theorem window_loop_count (cats : List Int) (n : Nat) :
    ∀ (win : Int) (coords : List Int), coords.length = 2 * n →
      ∃ units, window_loop cats win coords = .ok units ∧
        units.length = cats.length * non_gap_pairs coords := by
  induction n with
  | zero =>
    intro win coords h
    have hnil : coords = [] := List.length_eq_zero.mp (by omega)
    subst hnil
    exact ⟨[], by simp [window_loop], by simp [non_gap_pairs, window_pairs]⟩
  | succ n ih =>
    intro win coords h
    match coords, h with
    | b :: e :: rest, h =>
      have hrest : rest.length = 2 * n := by simp only [List.length_cons] at h; omega
      obtain ⟨tl, htl, hlen⟩ := ih (win + 2) rest hrest
      by_cases hgap : b < 0 ∨ e < 0
      · refine ⟨tl, ?_, ?_⟩
        · simp [window_loop, hgap, htl]
        · have : ¬ (0 ≤ b ∧ 0 ≤ e) := by omega
          simp only [non_gap_pairs, window_pairs, List.filter_cons, this, decide_False] at hlen ⊢
          simpa using hlen
      · refine ⟨category_loop cats win ++ tl, ?_, ?_⟩
        · simp [window_loop, hgap, htl, Except.map]
        · have : 0 ≤ b ∧ 0 ≤ e := by omega
          simp only [non_gap_pairs, window_pairs, List.filter_cons, this, decide_True,
            List.length_append, category_loop_length, List.length_cons] at hlen ⊢
          rw [hlen, if_pos (by simp), List.length_cons]
          ring

/-- C3 (as amended): for every category list and every window configuration
(no window list, or an even-length list of mapped coordinates), the loops end
normally and the number of units entered is the number of categories times
1 when there is no window list, and times the number of window pairs whose two
bounds are both non-negative when there is one (zero for an empty list or a
list of gaps only); so it is in every run whose set-up ends normally with
these lists. -/
theorem C3_unit_count (cats : List Int) (window_coords : Option (List Int))
    (heven : ∀ coords, window_coords = some coords → Even coords.length) :
    ∃ units, enumerate_units window_coords (some cats) = .ok units ∧
      units.length = cats.length *
        (match window_coords with
         | none => 1
         | some coords => non_gap_pairs coords) ∧
      ∀ (env : Env) (pf : phyloFit_struct) (s : Setup), run_phyloFit_setup env pf = .ok s →
        s.cats_to_do = some cats → s.window_coords = window_coords →
        run_phyloFit_units env pf = .ok units := by
  have hrun : ∀ units, enumerate_units window_coords (some cats) = .ok units →
      ∀ (env : Env) (pf : phyloFit_struct) (s : Setup), run_phyloFit_setup env pf = .ok s →
        s.cats_to_do = some cats → s.window_coords = window_coords →
        run_phyloFit_units env pf = .ok units := by
    intro units hu env pf s hs hc hw
    unfold run_phyloFit_units
    rw [hs]
    show enumerate_units s.window_coords s.cats_to_do = .ok units
    rw [hc, hw, hu]
  cases window_coords with
  | none =>
    exact ⟨category_loop cats 0, rfl, by simp [category_loop_length], hrun _ rfl⟩
  | some coords =>
    obtain ⟨n, hn⟩ := heven coords rfl
    obtain ⟨units, hu, hlen⟩ := window_loop_count cats n 0 coords (by omega)
    have hu2 : enumerate_units (some coords) (some cats) = .ok units := by
      simpa [enumerate_units] using hu
    exact ⟨units, hu2, hlen, hrun _ hu2⟩

/-- C3 (as amended) on three categories and the windows (1,100), a gap and
(201,250): six units. -/
theorem C3_unit_count_witness :
    (∀ coords, some [1, 100, -1, 150, 201, 250] = some coords → Even coords.length) ∧
    ([0, 1, 2] : List Int).length * non_gap_pairs [1, 100, -1, 150, 201, 250] = 6 ∧
    ∃ units, enumerate_units (some [1, 100, -1, 150, 201, 250]) (some [0, 1, 2]) = .ok units ∧
      units.length = ([0, 1, 2] : List Int).length *
        (match some [1, 100, -1, 150, 201, 250] with
         | none => 1
         | some coords => non_gap_pairs coords) ∧
      ∀ (env : Env) (pf : phyloFit_struct) (s : Setup), run_phyloFit_setup env pf = .ok s →
        s.cats_to_do = some [0, 1, 2] → s.window_coords = some [1, 100, -1, 150, 201, 250] →
        run_phyloFit_units env pf = .ok units :=
  ⟨fun coords h => by cases h; decide, by decide,
   C3_unit_count [0, 1, 2] (some [1, 100, -1, 150, 201, 250])
     (fun coords h => by cases h; decide)⟩

/-- C3 as stated fails: with an empty window list, or a window list of gaps
only, no unit is entered although the stated count is the number of
categories; the empty list is what a run with a window size generates on an
alignment of length 1. -/
theorem C3_counterexample :
    (enumerate_units (some []) (some [-1]) = .ok [] ∧
      specified_unit_count (some []) [-1] = 1) ∧
    (enumerate_units (some [-5, 10]) (some [0, 1]) = .ok [] ∧
      specified_unit_count (some [-5, 10]) [0, 1] = 2) ∧
    (run_phyloFit_setup sample_env
        { default_options (two_seq_msa 1) with window_size := 1, window_shift := 1 }
      |>.map (fun s => (s.window_coords, s.cats_to_do))) = .ok (some [], some [-1]) ∧
    run_phyloFit_units sample_env
        { default_options (two_seq_msa 1) with window_size := 1, window_shift := 1 } = .ok [] := by
  refine ⟨⟨?_, ?_⟩, ⟨?_, ?_⟩, ?_, ?_⟩
  · simp [enumerate_units, window_loop]
  · simp [specified_unit_count, non_gap_pairs, window_pairs]
  · simp [enumerate_units, window_loop]
  · simp [specified_unit_count, non_gap_pairs, window_pairs]
  · simp [run_phyloFit_setup, open_logs, default_options, check_options,
      check_rate_consts, setup_nonoverlapping, setup_tree, two_seq_msa, MSA.nseqs, sample_env,
      setup_root_leaf, label_sites, setup_cats_to_do, setup_window_coords, push_windows,
      in_int_range, INT_MIN, INT_MAX, Int.tdiv,
      setup_window_map, map_window_coords, bind, Except.bind, Except.map, pure, Except.pure]
  · simp [run_phyloFit_units, run_phyloFit_setup, open_logs, default_options, check_options,
      check_rate_consts, setup_nonoverlapping, setup_tree, two_seq_msa, MSA.nseqs, sample_env,
      setup_root_leaf, label_sites, setup_cats_to_do, setup_window_coords, push_windows,
      in_int_range, INT_MIN, INT_MAX, Int.tdiv,
      setup_window_map, map_window_coords, enumerate_units, window_loop, bind, Except.bind,
      Except.map, pure, Except.pure]

/-! ## Generated windows -/

/-- An exact result between the bounds of `int` is in the `int` range. -/
theorem in_int_range_of_bounds (v : Int) (hlo : -2147483648 ≤ v) (hhi : v ≤ 2147483647) :
    in_int_range v = true := by
  simp [in_int_range, INT_MIN, INT_MAX, hlo, hhi]

/-- The window loop entered at a start `i >= 1`, when exactly `n` more starts
`i, i + H, ...` lie below the length and the sums of the length with the
window size and with the shift do not exceed `INT_MAX`, appends their `n`
pairs and ends. -/
theorem push_windows_eq (L S H : Int) (hH : 0 < H) (hS : 1 ≤ S)
    (hLS : L + S ≤ INT_MAX) (hLH : L + H ≤ INT_MAX) (n : Nat) :
    ∀ (i : Int) (acc : List Int), 1 ≤ i →
      (∀ k : Nat, k < n → i + k * H < L) → ¬ (i + n * H < L) →
      push_windows L S H i acc =
        .ok (acc ++ (List.range n).flatMap
          fun (k : Nat) => [i + k * H, min (i + k * H + S - 1) L]) := by
  unfold INT_MAX at hLS hLH
  induction n with
  | zero =>
    intro i acc _ _ hstop
    rw [push_windows, dif_neg (by simpa using hstop)]
    simp
  | succ n ih =>
    intro i acc hi hin hstop
    have h0 : i < L := by simpa using hin 0 (Nat.succ_pos n)
    have hr1 := in_int_range_of_bounds (i + S) (by omega) (by omega)
    have hr2 := in_int_range_of_bounds (i + S - 1) (by omega) (by omega)
    have hr3 := in_int_range_of_bounds (i + H) (by omega) (by omega)
    rw [push_windows, dif_pos h0, dif_pos hH, hr1, hr2, hr3, if_pos (by rfl),
      ih (i + H) _ (by omega)]
    · rw [List.range_succ_eq_map, List.flatMap_cons, List.flatMap_map]
      simp only [Nat.cast_zero, zero_mul, add_zero, List.append_assoc, List.cons_append,
        List.nil_append, Nat.cast_succ]
      have e : ∀ k : Nat, i + H + (k : Int) * H = i + ((k : Int) + 1) * H := fun k => by ring
      simp only [e]
    · intro k hk
      have := hin (k + 1) (Nat.succ_lt_succ hk)
      push_cast at this
      linarith
    · intro hlt
      apply hstop
      push_cast
      linarith

/-- Under the same bounds the capacity `L / H + 1` of line 568 is an `int`. -/
theorem capacity_in_int_range (L H : Int) (hL : 1 ≤ L) (hH : 1 ≤ H) (hLH : L + H ≤ INT_MAX) :
    in_int_range (Int.tdiv L H + 1) = true := by
  unfold INT_MAX at hLH
  rw [Int.tdiv_eq_ediv (by omega) (by omega)]
  have h0 : 0 ≤ L / H := Int.ediv_nonneg (by omega) (by omega)
  have h1 : L / H ≤ L := Int.ediv_le_self _ (by omega)
  exact in_int_range_of_bounds _ (by omega) (by omega)

/-- With a window size, no explicit window list and the bounds on the sums,
lines 565-575 return the list the loop builds from the start 1. -/
theorem setup_window_coords_eq (L S H : Int) (hL : 1 ≤ L) (hS : 1 ≤ S) (hH : 1 ≤ H)
    (hLS : L + S ≤ INT_MAX) (hLH : L + H ≤ INT_MAX) (n : Nat)
    (hin : ∀ k : Nat, k < n → 1 + (k : Int) * H < L) (hstop : ¬ (1 + (n : Int) * H < L)) :
    setup_window_coords L S H none =
      .ok (some ((List.range n).flatMap
        fun (k : Nat) => [1 + (k : Int) * H, min (1 + (k : Int) * H + S - 1) L])) := by
  have hrun := push_windows_eq L S H (by omega) hS hLS hLH n 1 [] (by omega) hin hstop
  have hS1 : S ≠ -1 := by omega
  have hH0 : H ≠ 0 := by omega
  have hcap := capacity_in_int_range L H hL hH hLH
  unfold setup_window_coords
  rw [if_pos hS1, if_neg (by simp), if_neg hH0, hcap, if_neg (by simp), hrun]
  simp [Except.map]

/-- Pairing the coordinates pushed two at a time gives back the pairs. -/
theorem window_pairs_flatMap (f g : Nat → Int) (l : List Nat) :
    window_pairs (l.flatMap fun k => [f k, g k]) = l.map fun k => (f k, g k) := by
  induction l with
  | nil => simp [window_pairs]
  | cons a l ih =>
    rw [List.flatMap_cons, List.map_cons]
    simp only [List.cons_append, List.nil_append, window_pairs]
    exact congrArg _ ih

/-- For a positive shift the number of starts `1 + k * H` below `L` is
`(L - 2 + H) / H`. -/
theorem window_starts_count (L H : Int) (hL : 1 ≤ L) (hH : 1 ≤ H) (k : Nat) :
    k < ((L - 2 + H) / H).toNat ↔ 1 + (k : Int) * H < L := by
  have hpos : 0 < H := by omega
  have hq : 0 ≤ (L - 2 + H) / H := Int.ediv_nonneg (by omega) (by omega)
  have hle : (L - 2 + H) / H * H ≤ L - 2 + H := Int.ediv_mul_le _ (by omega)
  constructor
  · intro hk
    have hk1 : (k : Int) + 1 ≤ (L - 2 + H) / H := by omega
    have : ((k : Int) + 1) * H ≤ (L - 2 + H) / H * H := Int.mul_le_mul_of_nonneg_right hk1 (by omega)
    have e : ((k : Int) + 1) * H = (k : Int) * H + H := by ring
    omega
  · intro hk
    have e : ((k : Int) + 1) * H = (k : Int) * H + H := by ring
    have : ((k : Int) + 1) * H ≤ L - 2 + H := by omega
    have := Int.le_ediv_of_mul_le hpos this
    omega

/-- What the code relies on from `lst_qsort_dbl(l, ASCENDING)`: the result is
in ascending order and holds the same entries. -/
theorem sorted_head_pos_iff (l s : List ℚ) (hs : s.Sorted (· ≤ ·)) (hp : s.Perm l)
    (first : ℚ) (hfirst : s[0]? = some first) : 0 < first ↔ ∀ x ∈ l, 0 < x := by
  match s, hfirst with
  | a :: t, hfirst =>
    have ha : a = first := by simpa using hfirst
    subst ha
    have hle : ∀ x ∈ t, a ≤ x := (List.sorted_cons.mp hs).1
    constructor
    · intro hpos x hx
      rcases List.mem_cons.mp (hp.mem_iff.mpr hx) with rfl | hxt
      · exact hpos
      · exact lt_of_lt_of_le hpos (hle x hxt)
    · intro hall
      exact hall a (hp.mem_iff.mp (List.mem_cons_self a t))

/-- C5: for explicitly supplied rate constants, the validation after the
ascending sort passes if and only if there are at least 2 constants, every
constant is strictly positive and their number equals `nratecats`; in
particular `[0.5, 1.0, 2.0]` passes with `nratecats = 3` and is fatal with
`nratecats = 2`. -/
theorem C5_rate_consts_validation (env : Env)
    (hsorted : ∀ l, (env.lst_qsort_dbl l).Sorted (· ≤ ·))
    (hperm : ∀ l, (env.lst_qsort_dbl l).Perm l) :
    (∀ (l : List ℚ) (nratecats : Int),
      (∃ r, check_rate_consts env (some l) nratecats = .ok r) ↔
        (2 ≤ l.length ∧ (∀ x ∈ l, 0 < x) ∧ (l.length : Int) = nratecats)) ∧
    check_rate_consts env (some [1 / 2, 1, 2]) 3 = .ok (some [1 / 2, 1, 2]) ∧
    check_rate_consts env (some [1 / 2, 1, 2]) 2 = .error .rate_consts_length := by
  have hsame : env.lst_qsort_dbl [1 / 2, 1, 2] = [1 / 2, 1, 2] :=
    List.eq_of_perm_of_sorted (hperm _) (hsorted _) (by simp [List.Sorted]; norm_num)
  refine ⟨?_, ?_, ?_⟩
  · intro l nratecats
    have hlen : (env.lst_qsort_dbl l).length = l.length := (hperm l).length_eq
    unfold check_rate_consts
    simp only
    by_cases h2 : (env.lst_qsort_dbl l).length < 2
    · rw [if_pos h2]
      constructor
      · rintro ⟨r, hr⟩; cases hr
      · rintro ⟨h, _, _⟩; omega
    · rw [if_neg h2]
      have h0 : 0 < (env.lst_qsort_dbl l).length := by omega
      have hget : (env.lst_qsort_dbl l)[0]? = some ((env.lst_qsort_dbl l)[0]) :=
        List.getElem?_eq_getElem h0
      rw [hget]
      simp only
      have hpos := sorted_head_pos_iff l _ (hsorted l) (hperm l) _ hget
      by_cases hf : (env.lst_qsort_dbl l)[0] ≤ 0
      · rw [if_pos hf]
        constructor
        · rintro ⟨r, hr⟩; cases hr
        · rintro ⟨_, hall, _⟩
          exact absurd (hpos.mpr hall) (not_lt.mpr hf)
      · rw [if_neg hf]
        by_cases hn : nratecats ≠ ((env.lst_qsort_dbl l).length : Int)
        · rw [if_pos hn]
          constructor
          · rintro ⟨r, hr⟩; cases hr
          · rintro ⟨_, _, he⟩
            exact absurd (by rw [hlen]; exact he.symm) hn
        · rw [if_neg hn]
          constructor
          · intro _
            refine ⟨by omega, hpos.mp (not_le.mp hf), ?_⟩
            rw [← hlen]
            exact (not_not.mp hn).symm
          · intro _
            exact ⟨_, rfl⟩
  · unfold check_rate_consts
    simp only [hsame]
    norm_num
  · unfold check_rate_consts
    simp only [hsame]
    norm_num

/-- C5 with insertion sort as the ascending sort. -/
theorem C5_rate_consts_validation_witness :
    ((∀ l, (sample_env.lst_qsort_dbl l).Sorted (· ≤ ·)) ∧
      (∀ l, (sample_env.lst_qsort_dbl l).Perm l)) ∧
    (∀ (l : List ℚ) (nratecats : Int),
      (∃ r, check_rate_consts sample_env (some l) nratecats = .ok r) ↔
        (2 ≤ l.length ∧ (∀ x ∈ l, 0 < x) ∧ (l.length : Int) = nratecats)) ∧
    check_rate_consts sample_env (some [1 / 2, 1, 2]) 3 = .ok (some [1 / 2, 1, 2]) ∧
    check_rate_consts sample_env (some [1 / 2, 1, 2]) 2 = .error .rate_consts_length :=
  ⟨⟨fun l => List.sorted_insertionSort (· ≤ ·) l, fun l => List.perm_insertionSort (· ≤ ·) l⟩,
   C5_rate_consts_validation sample_env (fun l => List.sorted_insertionSort (· ≤ ·) l)
     (fun l => List.perm_insertionSort (· ≤ ·) l)⟩

/-- A list of rate constants that passes the validation is left as the sorted
list, which has `nratecats >= 2` entries and a positive first entry. -/
theorem check_rate_consts_ok (env : Env) (l : List ℚ) (nratecats : Int)
    (r : Option (List ℚ)) (h : check_rate_consts env (some l) nratecats = .ok r) :
    r = some (env.lst_qsort_dbl l) ∧ 2 ≤ (env.lst_qsort_dbl l).length ∧
      nratecats = ((env.lst_qsort_dbl l).length : Int) ∧
      ∃ first, (env.lst_qsort_dbl l)[0]? = some first ∧ 0 < first := by
  unfold check_rate_consts at h
  simp only at h
  split at h
  · cases h
  · rename_i h2
    split at h
    · cases h
    · rename_i first hfirst
      split at h
      · cases h
      · rename_i hpos
        split at h
        · cases h
        · rename_i hn
          cases h
          exact ⟨rfl, by omega, not_not.mp hn, first, hfirst, not_le.mp hpos⟩

/-- C6 (as amended): every explicitly supplied rate-constant list that passes
the validation is, after the sort, in non-decreasing order with all its
constants positive and `nratecats >= 2` of them; it is strictly increasing
exactly when the supplied constants are pairwise distinct, which the
validation does not test. -/
theorem C6_valid_rate_consts_sorted_positive (env : Env)
    (hsorted : ∀ l, (env.lst_qsort_dbl l).Sorted (· ≤ ·))
    (hperm : ∀ l, (env.lst_qsort_dbl l).Perm l)
    (l : List ℚ) (nratecats : Int) (r : Option (List ℚ))
    (h : check_rate_consts env (some l) nratecats = .ok r) :
    ∃ sorted, r = some sorted ∧ sorted.Perm l ∧ sorted.Sorted (· ≤ ·) ∧
      (∀ x ∈ sorted, 0 < x) ∧ (sorted.length : Int) = nratecats ∧ 2 ≤ sorted.length ∧
      (sorted.Sorted (· < ·) ↔ l.Nodup) := by
  obtain ⟨hr, h2, hn, first, hfirst, hpos⟩ := check_rate_consts_ok env l nratecats r h
  refine ⟨_, hr, hperm l, hsorted l, ?_, hn.symm, h2, ?_⟩
  · intro x hx
    exact (sorted_head_pos_iff l _ (hsorted l) (hperm l) first hfirst).mp hpos x
      ((hperm l).mem_iff.mp hx)
  · constructor
    · intro hlt
      exact (hperm l).nodup_iff.mp hlt.nodup
    · intro hnd
      exact (hsorted l).lt_of_le ((hperm l).nodup_iff.mpr hnd)

/-- C6 (as amended) on the constants 2, 1/2, 1 with three rate categories. -/
theorem C6_valid_rate_consts_sorted_positive_witness :
    check_rate_consts sample_env (some [2, 1 / 2, 1]) 3 = .ok (some [1 / 2, 1, 2]) ∧
    ∃ sorted, some [1 / 2, 1, (2 : ℚ)] = some sorted ∧ sorted.Perm [2, 1 / 2, 1] ∧
      sorted.Sorted (· ≤ ·) ∧
      (∀ x ∈ sorted, 0 < x) ∧ (sorted.length : Int) = 3 ∧ 2 ≤ sorted.length ∧
      (sorted.Sorted (· < ·) ↔ ([2, 1 / 2, 1] : List ℚ).Nodup) :=
  have hrun : check_rate_consts sample_env (some [2, 1 / 2, 1]) 3 = .ok (some [1 / 2, 1, 2]) := by
    unfold check_rate_consts
    simp only [sample_env, List.insertionSort, List.orderedInsert]
    norm_num
  ⟨hrun, C6_valid_rate_consts_sorted_positive sample_env
    (fun l => List.sorted_insertionSort (· ≤ ·) l) (fun l => List.perm_insertionSort (· ≤ ·) l)
    [2, 1 / 2, 1] 3 (some [1 / 2, 1, 2]) hrun⟩

/-- C6 as stated fails: the constants 1, 1 with two rate categories pass the
validation, and the sorted list 1, 1 is not strictly increasing. -/
theorem C6_counterexample :
    check_rate_consts sample_env (some [1, 1]) 2 = .ok (some [1, 1]) ∧
    ¬ ([1, 1] : List ℚ).Sorted (· < ·) ∧ ¬ ([1, 1] : List ℚ).Nodup := by
  refine ⟨?_, ?_, ?_⟩
  · unfold check_rate_consts
    simp only [sample_env, List.insertionSort, List.orderedInsert]
    norm_num
  · simp [List.Sorted]
  · simp

/-! ## Option conflicts -/

/-- C7: when both `use_em` and `use_conditionals` are set, the run ends with the
fatal error of line 420 whatever the other options and the collaborators are:
the option check fails first, the set-up returns no category list, window list
or tree, and no unit is entered. -/
theorem C7_em_with_conditionals_fatal (env : Env) (pf : phyloFit_struct)
    (hem : pf.use_em = true) (hcond : pf.use_conditionals = true) :
    check_options pf = .error .markov_with_em ∧
    (run_phyloFit_setup env pf).toOption.isNone = true ∧
    (run_phyloFit_setup env pf).map (fun s => (s.cats_to_do, s.window_coords, s.tree)) =
      .error .markov_with_em ∧
    run_phyloFit_units env pf = .error .markov_with_em := by
  have hc : check_options pf = .error .markov_with_em := by
    simp [check_options, hem, hcond]
  have hs : ∀ α (f : Setup → α), (run_phyloFit_setup env pf).map f = .error .markov_with_em := by
    intro α f
    simp [run_phyloFit_setup, hc, bind, Except.bind, Except.map]
  refine ⟨hc, ?_, hs _ _, ?_⟩
  · have := hs Setup id
    cases hrun : run_phyloFit_setup env pf with
    | error e => rfl
    | ok s => rw [hrun] at this; cases this
  · have := hs Setup id
    cases hrun : run_phyloFit_setup env pf with
    | error e =>
      rw [hrun] at this
      simp only [Except.map] at this
      simp [run_phyloFit_units, hrun, bind, Except.bind, this]
    | ok s => rw [hrun] at this; cases this

/-- C7 on the default options with EM and conditionals switched on, a window
size and a category restriction. -/
theorem C7_em_with_conditionals_fatal_witness :
    check_options { default_options (two_seq_msa 250) with
      use_em := true, use_conditionals := true, window_size := 100, window_shift := 50,
      cats_to_do_str := some ["1"] } = .error .markov_with_em ∧
    (run_phyloFit_setup sample_env { default_options (two_seq_msa 250) with
      use_em := true, use_conditionals := true, window_size := 100, window_shift := 50,
      cats_to_do_str := some ["1"] }).toOption.isNone = true ∧
    (run_phyloFit_setup sample_env { default_options (two_seq_msa 250) with
      use_em := true, use_conditionals := true, window_size := 100, window_shift := 50,
      cats_to_do_str := some ["1"] }).map (fun s => (s.cats_to_do, s.window_coords, s.tree)) =
      .error .markov_with_em ∧
    run_phyloFit_units sample_env { default_options (two_seq_msa 250) with
      use_em := true, use_conditionals := true, window_size := 100, window_shift := 50,
      cats_to_do_str := some ["1"] } = .error .markov_with_em :=
  C7_em_with_conditionals_fatal sample_env _ rfl rfl

/-! ## Posterior statistics -/

/-- C8: with more than one rate category `print_post_prob_stats` stops at the
assertion of line 203 before any event (no posterior structure allocated, no
file opened); with one rate category and `tree_posteriors` unset it returns,
the tallies are allocated first and freed last, one file is opened per
requested table, and the model is returned with `tree_posteriors` unset
again. -/
theorem C8_posteriors_need_one_ratecat (mod : TreeModel) (output_fname_root : String)
    (do_bases do_expected_nsubst do_expected_nsubst_tot : Bool) (cat : Int) :
    (1 < mod.nratecats →
      print_post_prob_stats mod output_fname_root do_bases do_expected_nsubst
        do_expected_nsubst_tot cat = ([], .error .assert_nratecats)) ∧
    (mod.nratecats = 1 → mod.tree_posteriors = none →
      ∃ trace result,
        print_post_prob_stats mod output_fname_root do_bases do_expected_nsubst
          do_expected_nsubst_tot cat = (trace, .ok result) ∧
        result.tree_posteriors = none ∧ result = mod ∧
        trace.head? = some .alloc_posteriors ∧ trace.getLast? = some .free_posteriors ∧
        trace.count .alloc_posteriors = 1 ∧ trace.count .free_posteriors = 1 ∧
        (trace.filter fun e => e matches .fopen _).length =
          do_bases.toNat + do_expected_nsubst.toNat + do_expected_nsubst_tot.toNat) := by
  constructor
  · intro h
    have hne : mod.nratecats ≠ 1 := by omega
    simp [print_post_prob_stats, hne]
  · intro h1 hnone
    have hmod : ({ mod with tree_posteriors := none } : TreeModel) = mod := by
      cases mod
      simp only at hnone
      simp [hnone]
    have hrun : print_post_prob_stats mod output_fname_root do_bases do_expected_nsubst
        do_expected_nsubst_tot cat =
        ([.alloc_posteriors, .compute_posteriors] ++
          (post_prob_section do_bases output_fname_root cat ".postprob" ++
           post_prob_section do_expected_nsubst output_fname_root cat ".expsub" ++
           post_prob_section do_expected_nsubst_tot output_fname_root cat ".exptotsub") ++
          [.free_posteriors], .ok mod) := by
      have h1n : ¬ (mod.nratecats ≠ 1) := not_not.mpr h1
      have hns : ¬ (mod.tree_posteriors.isSome = true) := by simp [hnone]
      unfold print_post_prob_stats
      rw [if_neg h1n, if_neg hns]
      exact congrArg (fun m => (_, Except.ok m)) hmod
    refine ⟨_, _, hrun, hnone, rfl, ?_, ?_, ?_, ?_, ?_⟩
    · simp
    · rw [List.getLast?_append]
      simp
    · cases do_bases <;> cases do_expected_nsubst <;> cases do_expected_nsubst_tot <;>
        simp [post_prob_section, List.count_cons]
    · cases do_bases <;> cases do_expected_nsubst <;> cases do_expected_nsubst_tot <;>
        simp [post_prob_section, List.count_cons]
    · cases do_bases <;> cases do_expected_nsubst <;> cases do_expected_nsubst_tot <;>
        simp [post_prob_section, List.filter_cons]

/-- C8 on a model with four rate categories and on one with a single rate
category, all three tables requested for category 2. -/
theorem C8_posteriors_need_one_ratecat_witness :
    ((1 : Int) < (two_leaf_model 4).nratecats ∧
      print_post_prob_stats (two_leaf_model 4) "out" true true true 2 =
        ([], .error .assert_nratecats)) ∧
    ((two_leaf_model 1).nratecats = 1 ∧ (two_leaf_model 1).tree_posteriors = none ∧
      ∃ trace result,
        print_post_prob_stats (two_leaf_model 1) "out" true true true 2 = (trace, .ok result) ∧
        result.tree_posteriors = none ∧ result = two_leaf_model 1 ∧
        trace.head? = some .alloc_posteriors ∧ trace.getLast? = some .free_posteriors ∧
        trace.count .alloc_posteriors = 1 ∧ trace.count .free_posteriors = 1 ∧
        (trace.filter fun e => e matches .fopen _).length =
          true.toNat + true.toNat + true.toNat) :=
  ⟨⟨by decide, (C8_posteriors_need_one_ratecat (two_leaf_model 4) "out" true true true 2).1
      (by decide)⟩,
   rfl, rfl,
   (C8_posteriors_need_one_ratecat (two_leaf_model 1) "out" true true true 2).2 rfl rfl⟩

/-! ## Pruning -/

/-- A rooted binary tree with `L` leaves has `2 L - 1` nodes. -/
theorem nnodes_eq (t : TreeNode) : t.nnodes + 1 = 2 * t.nleaves := by
  induction t with
  | leaf n => rfl
  | internal l r hl hr => simp only [TreeNode.nnodes, TreeNode.nleaves]; omega

/-- The leaves of a tree are as many as their names. -/
theorem leaf_names_length (t : TreeNode) : t.leaf_names.length = t.nleaves := by
  induction t with
  | leaf n => rfl
  | internal l r hl hr => simp [TreeNode.leaf_names, TreeNode.nleaves, hl, hr]

/-- The pruning test is fatal exactly at the threshold `(old_nnodes + 1) / 2`. -/
theorem check_pruned_iff (pruned_names : List String) (old_nnodes : Nat) :
    check_pruned pruned_names old_nnodes = .error .no_match_for_leaves ↔
      pruned_names.length = (old_nnodes + 1) / 2 := by
  have hdiv : Int.tdiv ((old_nnodes : Int) + 1) 2 = (((old_nnodes + 1) / 2 : Nat) : Int) := by
    rw [Int.tdiv_eq_ediv (by omega) (by omega)]
    omega
  unfold check_pruned
  rw [hdiv]
  by_cases h : pruned_names.length = (old_nnodes + 1) / 2
  · rw [if_pos (by exact_mod_cast h)]
    exact ⟨fun _ => h, fun _ => rfl⟩
  · have hz : ¬ ((pruned_names.length : Int) = (((old_nnodes + 1) / 2 : Nat) : Int)) := by
      exact_mod_cast h
    rw [if_neg hz]
    exact ⟨fun hc => (by cases hc), fun hc => absurd hc h⟩

/-- C9: the run fails on pruning exactly when the number of pruned names equals
`(old_nnodes + 1) / 2`, half the node count rounded up; for a rooted binary
tree with `L >= 1` leaves, hence `2 L - 1` nodes, the threshold is `L`: the
failure occurs if and only if as many names as there are leaves were pruned,
which for distinct pruned names taken among distinct leaf names means that
every leaf was pruned, and pruning fewer leaves is not fatal. -/
theorem C9_prune_threshold (t : TreeNode) (pruned_names : List String) (old_nnodes : Nat) :
    (check_pruned pruned_names old_nnodes = .error .no_match_for_leaves ↔
      pruned_names.length = (old_nnodes + 1) / 2) ∧
    (old_nnodes ≤ 2 * ((old_nnodes + 1) / 2) ∧ 2 * ((old_nnodes + 1) / 2) ≤ old_nnodes + 1) ∧
    (1 ≤ t.nleaves ∧ t.nnodes = 2 * t.nleaves - 1 ∧ (t.nnodes + 1) / 2 = t.nleaves) ∧
    (check_pruned pruned_names t.nnodes = .error .no_match_for_leaves ↔
      pruned_names.length = t.nleaves) ∧
    (pruned_names.length < t.nleaves → check_pruned pruned_names t.nnodes = .ok ()) ∧
    (pruned_names.Nodup → t.leaf_names.Nodup → (∀ n ∈ pruned_names, n ∈ t.leaf_names) →
      (check_pruned pruned_names t.nnodes = .error .no_match_for_leaves ↔
        ∀ n ∈ t.leaf_names, n ∈ pruned_names)) := by
  have hn := nnodes_eq t
  have hthr : (t.nnodes + 1) / 2 = t.nleaves := by omega
  have hiff : check_pruned pruned_names t.nnodes = .error .no_match_for_leaves ↔
      pruned_names.length = t.nleaves := by
    rw [check_pruned_iff, hthr]
  have hpos : 1 ≤ t.nleaves := by
    cases t with
    | leaf n => exact Nat.le_refl 1
    | internal l r => omega
  refine ⟨check_pruned_iff pruned_names old_nnodes, ⟨by omega, by omega⟩,
    ⟨hpos, by omega, hthr⟩, hiff, ?_, ?_⟩
  · intro hlt
    have hne : ¬ (check_pruned pruned_names t.nnodes = .error .no_match_for_leaves) := by
      rw [hiff]; omega
    unfold check_pruned at hne ⊢
    split
    · rename_i heq
      exact absurd (by rw [if_pos heq]) hne
    · rfl
  · intro hnd hleaves hsub
    rw [hiff, ← leaf_names_length t]
    constructor
    · intro hlen n hn
      have hperm := (List.subperm_of_subset hnd hsub).perm_of_length_le (by omega)
      exact hperm.mem_iff.mpr hn
    · intro hall
      have hperm : pruned_names.Perm t.leaf_names :=
        (List.perm_ext_iff_of_nodup hnd hleaves).mpr fun a => ⟨hsub a, hall a⟩
      exact hperm.length_eq

/-- C9 on the tree `(a,(b,c))` of 5 nodes: pruning `c`, `a`, `b` is fatal,
pruning `c` alone is not. -/
theorem C9_prune_threshold_witness :
    check_pruned ["c", "a", "b"]
      (TreeNode.internal (.leaf "a") (.internal (.leaf "b") (.leaf "c"))).nnodes =
        .error .no_match_for_leaves ∧
    check_pruned ["c"]
      (TreeNode.internal (.leaf "a") (.internal (.leaf "b") (.leaf "c"))).nnodes = .ok () ∧
    (∀ n ∈ (TreeNode.internal (.leaf "a") (.internal (.leaf "b") (.leaf "c"))).leaf_names,
      n ∈ ["c", "a", "b"]) :=
  have h := C9_prune_threshold (.internal (.leaf "a") (.internal (.leaf "b") (.leaf "c")))
    ["c", "a", "b"] 5
  have h1 := C9_prune_threshold (.internal (.leaf "a") (.internal (.leaf "b") (.leaf "c")))
    ["c"] 5
  have hfatal := h.2.2.2.1.mpr (by decide)
  ⟨hfatal, h1.2.2.2.2.1 (by decide),
   (h.2.2.2.2.2 (by decide) (by decide) (by decide)).mp hfatal⟩

/-! ## The tree built from the sequence names -/

/-- The option checks never report the error of line 483. -/
theorem check_options_ne_tree_required (pf : phyloFit_struct) :
    check_options pf ≠ .error .tree_required := by
  unfold check_options
  repeat' split
  all_goals simp

/-- The rate-constant checks never report the error of line 483. -/
theorem check_rate_consts_ne_tree_required (env : Env) (rc : Option (List ℚ)) (n : Int) :
    check_rate_consts env rc n ≠ .error .tree_required := by
  unfold check_rate_consts
  simp only []
  repeat' split
  all_goals simp

/-- The non-overlapping step never reports the error of line 483. -/
theorem setup_nonoverlapping_ne_tree_required (b : Bool) (strs : Option (List String)) :
    setup_nonoverlapping b strs ≠ .error .tree_required := by
  unfold setup_nonoverlapping
  repeat' split
  all_goals simp

/-- The ancestor step never reports the error of line 483. -/
theorem setup_root_leaf_ne_tree_required (env : Env) (name : Option String) (t : TreeNode)
    (m : subst_mod_type) : setup_root_leaf env name t m ≠ .error .tree_required := by
  unfold setup_root_leaf
  repeat' split
  all_goals simp

/-- Labelling the sites never reports the error of line 483. -/
theorem label_sites_ne_tree_required (env : Env) (pf : phyloFit_struct)
    (cm : Option CategoryMap) (msa : MSA) :
    label_sites env pf cm msa ≠ .error .tree_required := by
  unfold label_sites
  simp only []
  repeat' split
  all_goals simp

/-- Building the category list never reports the error of line 483. -/
theorem setup_cats_to_do_ne_tree_required (env : Env) (ncats : Int)
    (strs : Option (List String)) (cm : Option CategoryMap) :
    setup_cats_to_do env ncats strs cm ≠ .error .tree_required := by
  unfold setup_cats_to_do
  repeat' split
  all_goals simp

/-- The window loop never reports the error of line 483. -/
theorem push_windows_ne_tree_required (L S H : Int) (n : Nat) :
    ∀ (i : Int) (acc : List Int), (L - i).toNat ≤ n →
      push_windows L S H i acc ≠ .error .tree_required := by
  induction n with
  | zero =>
    intro i acc h
    rw [push_windows, dif_neg (by omega)]
    simp
  | succ n ih =>
    intro i acc h
    rw [push_windows]
    split
    · split
      · split
        · exact ih _ _ (by omega)
        · simp
      · simp
    · simp

/-- Generating the windows never reports the error of line 483. -/
theorem setup_window_coords_ne_tree_required (L S H : Int) (wc : Option (List Int)) :
    setup_window_coords L S H wc ≠ .error .tree_required := by
  unfold setup_window_coords
  split
  · split
    · simp
    · split
      · simp
      · split
        · simp
        · have := push_windows_ne_tree_required L S H _ 1 [] (Nat.le_refl _)
          cases hp : push_windows L S H 1 [] with
          | error e => rw [hp] at this; simpa [Except.map] using this
          | ok l => simp [Except.map]
  · simp

/-- Mapping the window coordinates never reports the error of line 483. -/
theorem map_window_coords_ne_tree_required (f : Int → Int) (n : Nat) :
    ∀ coords : List Int, coords.length ≤ n →
      map_window_coords f coords ≠ .error .tree_required := by
  induction n with
  | zero =>
    intro coords h
    have : coords = [] := List.length_eq_zero.mp (by omega)
    subst this
    simp [map_window_coords]
  | succ n ih =>
    intro coords h
    match coords, h with
    | [], _ => simp [map_window_coords]
    | [_], _ => simp [map_window_coords]
    | b :: e :: rest, h =>
      have := ih rest (by simp only [List.length_cons] at h; omega)
      cases hp : map_window_coords f rest with
      | error err => rw [hp] at this; simpa [map_window_coords, hp, Except.map] using this
      | ok l => simp [map_window_coords, hp, Except.map]

/-- The window set-up never reports the error of line 483. -/
theorem setup_window_map_ne_tree_required (env : Env) (msa : MSA) (root : Option String)
    (wc : Option (List Int)) : setup_window_map env msa root wc ≠ .error .tree_required := by
  unfold setup_window_map
  split
  · simp
  · split
    · simp
    · rename_i coords _
      have := map_window_coords_ne_tree_required (env.msa_map_seq_to_msa msa) _ coords
        (Nat.le_refl _)
      cases hp : map_window_coords (env.msa_map_seq_to_msa msa) coords with
      | error err => rw [hp] at this; simpa [Except.map] using this
      | ok l => simp [Except.map]

/-- The unit loops never report the error of line 483. -/
theorem window_loop_ne_tree_required (cats : List Int) (n : Nat) :
    ∀ (win : Int) (coords : List Int), coords.length ≤ n →
      window_loop cats win coords ≠ .error .tree_required := by
  induction n with
  | zero =>
    intro win coords h
    have : coords = [] := List.length_eq_zero.mp (by omega)
    subst this
    simp [window_loop]
  | succ n ih =>
    intro win coords h
    match coords, h with
    | [], _ => simp [window_loop]
    | [_], _ => simp [window_loop]
    | b :: e :: rest, h =>
      have := ih (win + 2) rest (by simp only [List.length_cons] at h; omega)
      rw [window_loop]
      split
      · exact this
      · cases hp : window_loop cats (win + 2) rest with
        | error err => rw [hp] at this; simpa [Except.map] using this
        | ok l => simp [Except.map]

/-- Entering the units never reports the error of line 483. -/
theorem enumerate_units_ne_tree_required (wc : Option (List Int)) (cats : Option (List Int)) :
    enumerate_units wc cats ≠ .error .tree_required := by
  unfold enumerate_units
  split
  · simp
  · split
    · simp
    · exact window_loop_ne_tree_required _ _ _ _ (Nat.le_refl _)

/-- C10: for an alignment of exactly two sequences named `a` and `b`, with no
tree and no input model, and for every substitution model, the tree is built
from the string `(a,b)` (names in alignment order); the run does not fail with
the tree-required error, neither in the set-up nor before the units, and when
the set-up ends normally its tree is the one parsed from that string. -/
theorem C10_two_sequence_tree (env : Env) (pf : phyloFit_struct) (a b : String)
    (hnames : pf.msa.names = [a, b]) (htree : pf.tree = none) (hmod : pf.input_mod = none) :
    setup_tree env pf.tree pf.input_mod pf.msa pf.subst_mod =
      .ok { tree := env.tr_new_from_string ("(" ++ a ++ "," ++ b ++ ")"), free_tree := true,
            tmpchstr := some ("(" ++ a ++ "," ++ b ++ ")") } ∧
    run_phyloFit_setup env pf ≠ .error .tree_required ∧
    (∀ s, run_phyloFit_setup env pf = .ok s →
      s.tree = { tree := env.tr_new_from_string ("(" ++ a ++ "," ++ b ++ ")"),
                 free_tree := true, tmpchstr := some ("(" ++ a ++ "," ++ b ++ ")") }) ∧
    run_phyloFit_units env pf ≠ .error .tree_required := by
  have hstage : setup_tree env pf.tree pf.input_mod pf.msa pf.subst_mod =
      .ok { tree := env.tr_new_from_string ("(" ++ a ++ "," ++ b ++ ")"), free_tree := true,
            tmpchstr := some ("(" ++ a ++ "," ++ b ++ ")") } := by
    simp [setup_tree, htree, hmod, MSA.nseqs, hnames]
  have hsetup : run_phyloFit_setup env pf ≠ .error .tree_required := by
    unfold run_phyloFit_setup
    simp only []
    refine bind_ne_tree_required _ _ (check_options_ne_tree_required pf) fun _ _ => ?_
    refine bind_ne_tree_required _ _ (check_rate_consts_ne_tree_required env _ _) fun _ _ => ?_
    refine bind_ne_tree_required _ _ (setup_nonoverlapping_ne_tree_required _ _) fun _ _ => ?_
    refine bind_ne_tree_required _ _ (by rw [hstage]; simp) fun _ _ => ?_
    refine bind_ne_tree_required _ _ (setup_root_leaf_ne_tree_required env _ _ _) fun _ _ => ?_
    refine bind_ne_tree_required _ _ (label_sites_ne_tree_required env _ _ _) fun _ _ => ?_
    refine bind_ne_tree_required _ _ (setup_cats_to_do_ne_tree_required env _ _ _) fun _ _ => ?_
    refine bind_ne_tree_required _ _ (setup_window_coords_ne_tree_required _ _ _ _)
      fun _ _ => ?_
    refine bind_ne_tree_required _ _ (setup_window_map_ne_tree_required env _ _ _)
      fun _ _ => ?_
    simp [pure, Except.pure]
  refine ⟨hstage, hsetup, ?_, ?_⟩
  · intro s hs
    unfold run_phyloFit_setup at hs
    simp only [] at hs
    obtain ⟨_, _, hs⟩ := bind_eq_ok _ _ _ hs
    obtain ⟨_, _, hs⟩ := bind_eq_ok _ _ _ hs
    obtain ⟨_, _, hs⟩ := bind_eq_ok _ _ _ hs
    obtain ⟨ts, hts, hs⟩ := bind_eq_ok _ _ _ hs
    obtain ⟨_, _, hs⟩ := bind_eq_ok _ _ _ hs
    obtain ⟨_, _, hs⟩ := bind_eq_ok _ _ _ hs
    obtain ⟨_, _, hs⟩ := bind_eq_ok _ _ _ hs
    obtain ⟨_, _, hs⟩ := bind_eq_ok _ _ _ hs
    obtain ⟨_, _, hs⟩ := bind_eq_ok _ _ _ hs
    rw [hstage] at hts
    cases hts
    cases hs
    rfl
  · unfold run_phyloFit_units
    exact bind_ne_tree_required _ _ hsetup fun _ _ => enumerate_units_ne_tree_required _ _

/-- C10 on the default options and the alignment of the sequences `a` and `b`:
the tree string is `(a,b)`. -/
theorem C10_two_sequence_tree_witness :
    ((default_options (two_seq_msa 250)).msa.names = ["a", "b"] ∧
      (default_options (two_seq_msa 250)).tree = none ∧
      (default_options (two_seq_msa 250)).input_mod = none) ∧
    "(" ++ "a" ++ "," ++ "b" ++ ")" = "(a,b)" ∧
    (setup_tree sample_env (default_options (two_seq_msa 250)).tree
        (default_options (two_seq_msa 250)).input_mod (default_options (two_seq_msa 250)).msa
        (default_options (two_seq_msa 250)).subst_mod =
      .ok { tree := sample_env.tr_new_from_string ("(" ++ "a" ++ "," ++ "b" ++ ")"),
            free_tree := true, tmpchstr := some ("(" ++ "a" ++ "," ++ "b" ++ ")") } ∧
    run_phyloFit_setup sample_env (default_options (two_seq_msa 250)) ≠ .error .tree_required ∧
    (∀ s, run_phyloFit_setup sample_env (default_options (two_seq_msa 250)) = .ok s →
      s.tree = { tree := sample_env.tr_new_from_string ("(" ++ "a" ++ "," ++ "b" ++ ")"),
                 free_tree := true, tmpchstr := some ("(" ++ "a" ++ "," ++ "b" ++ ")") }) ∧
    run_phyloFit_units sample_env (default_options (two_seq_msa 250)) ≠
      .error .tree_required) :=
  ⟨⟨rfl, rfl, rfl⟩, by decide,
   C10_two_sequence_tree sample_env (default_options (two_seq_msa 250)) "a" "b" rfl rfl rfl⟩

/-- When the set-up ends normally, its tree is the one lines 470-484 choose. -/
theorem run_phyloFit_setup_tree (env : Env) (pf : phyloFit_struct) (s : Setup)
    (h : run_phyloFit_setup env pf = .ok s) :
    setup_tree env pf.tree pf.input_mod pf.msa pf.subst_mod = .ok s.tree := by
  unfold run_phyloFit_setup at h
  simp only [] at h
  obtain ⟨_, _, h⟩ := bind_eq_ok _ _ _ h
  obtain ⟨_, _, h⟩ := bind_eq_ok _ _ _ h
  obtain ⟨_, _, h⟩ := bind_eq_ok _ _ _ h
  obtain ⟨ts, hts, h⟩ := bind_eq_ok _ _ _ h
  obtain ⟨_, _, h⟩ := bind_eq_ok _ _ _ h
  obtain ⟨_, _, h⟩ := bind_eq_ok _ _ _ h
  obtain ⟨_, _, h⟩ := bind_eq_ok _ _ _ h
  obtain ⟨_, _, h⟩ := bind_eq_ok _ _ _ h
  obtain ⟨_, _, h⟩ := bind_eq_ok _ _ _ h
  cases h
  exact hts

/-- A run whose tree step fails does not end normally: it ends with an error,
and so does the run up to the units. -/
theorem run_fails_of_setup_tree_error (env : Env) (pf : phyloFit_struct) (e : Fatal)
    (h : setup_tree env pf.tree pf.input_mod pf.msa pf.subst_mod = .error e) :
    (∃ e2, run_phyloFit_setup env pf = .error e2) ∧
    (∃ e2, run_phyloFit_units env pf = .error e2) := by
  have hsetup : ∃ e2, run_phyloFit_setup env pf = .error e2 := by
    cases hrun : run_phyloFit_setup env pf with
    | error e2 => exact ⟨e2, rfl⟩
    | ok s =>
      have := run_phyloFit_setup_tree env pf s hrun
      rw [h] at this
      cases this
  obtain ⟨e2, he2⟩ := hsetup
  exact ⟨⟨e2, he2⟩, ⟨e2, by simp [run_phyloFit_units, he2, bind, Except.bind]⟩⟩

/-- C11 (as amended): with no tree and no input model, for an alignment of
exactly three sequences `a`, `b`, `c` the tree is built from the string
`(a,(b,c))` when the substitution model is reversible, and the tree step fails
with the tree-required error when the model is not reversible; with 4 or more
sequences, or fewer than 2, the tree step fails with the tree-required error
for every model; whenever the tree step fails the run ends with an error. -/
theorem C11_three_sequence_tree (env : Env) (pf : phyloFit_struct)
    (htree : pf.tree = none) (hmod : pf.input_mod = none) :
    (∀ a b c : String, pf.msa.names = [a, b, c] → env.tm_is_reversible pf.subst_mod = true →
      setup_tree env pf.tree pf.input_mod pf.msa pf.subst_mod =
        .ok { tree := env.tr_new_from_string ("(" ++ a ++ ",(" ++ b ++ "," ++ c ++ "))"),
              free_tree := true,
              tmpchstr := some ("(" ++ a ++ ",(" ++ b ++ "," ++ c ++ "))") } ∧
      run_phyloFit_setup env pf ≠ .error .tree_required ∧
      ∀ s, run_phyloFit_setup env pf = .ok s →
        s.tree.tmpchstr = some ("(" ++ a ++ ",(" ++ b ++ "," ++ c ++ "))")) ∧
    (∀ a b c : String, pf.msa.names = [a, b, c] → env.tm_is_reversible pf.subst_mod = false →
      setup_tree env pf.tree pf.input_mod pf.msa pf.subst_mod = .error .tree_required ∧
      (∃ e, run_phyloFit_setup env pf = .error e) ∧
      (∃ e, run_phyloFit_units env pf = .error e)) ∧
    (4 ≤ pf.msa.names.length ∨ pf.msa.names.length < 2 →
      setup_tree env pf.tree pf.input_mod pf.msa pf.subst_mod = .error .tree_required ∧
      (∃ e, run_phyloFit_setup env pf = .error e) ∧
      (∃ e, run_phyloFit_units env pf = .error e)) := by
  refine ⟨?_, ?_, ?_⟩
  · intro a b c hnames hrev
    have hstage : setup_tree env pf.tree pf.input_mod pf.msa pf.subst_mod =
        .ok { tree := env.tr_new_from_string ("(" ++ a ++ ",(" ++ b ++ "," ++ c ++ "))"),
              free_tree := true,
              tmpchstr := some ("(" ++ a ++ ",(" ++ b ++ "," ++ c ++ "))") } := by
      simp [setup_tree, htree, hmod, MSA.nseqs, hnames, hrev]
    refine ⟨hstage, ?_, ?_⟩
    · intro herr
      unfold run_phyloFit_setup at herr
      simp only [] at herr
      revert herr
      refine bind_ne_tree_required _ _ (check_options_ne_tree_required pf) fun _ _ => ?_
      refine bind_ne_tree_required _ _ (check_rate_consts_ne_tree_required env _ _)
        fun _ _ => ?_
      refine bind_ne_tree_required _ _ (setup_nonoverlapping_ne_tree_required _ _)
        fun _ _ => ?_
      refine bind_ne_tree_required _ _ (by rw [hstage]; simp) fun _ _ => ?_
      refine bind_ne_tree_required _ _ (setup_root_leaf_ne_tree_required env _ _ _)
        fun _ _ => ?_
      refine bind_ne_tree_required _ _ (label_sites_ne_tree_required env _ _ _) fun _ _ => ?_
      refine bind_ne_tree_required _ _ (setup_cats_to_do_ne_tree_required env _ _ _)
        fun _ _ => ?_
      refine bind_ne_tree_required _ _ (setup_window_coords_ne_tree_required _ _ _ _)
        fun _ _ => ?_
      refine bind_ne_tree_required _ _ (setup_window_map_ne_tree_required env _ _ _)
        fun _ _ => ?_
      simp [pure, Except.pure]
    · intro s hs
      have := run_phyloFit_setup_tree env pf s hs
      rw [hstage] at this
      rw [← Except.ok.inj this]
  · intro a b c hnames hrev
    have hstage : setup_tree env pf.tree pf.input_mod pf.msa pf.subst_mod =
        .error .tree_required := by
      simp [setup_tree, htree, hmod, MSA.nseqs, hnames, hrev]
    exact ⟨hstage, run_fails_of_setup_tree_error env pf _ hstage⟩
  · intro hlen
    have h2 : ¬ (pf.msa.nseqs = 2) := by unfold MSA.nseqs; omega
    have h3 : ¬ (pf.msa.nseqs = 3) := by unfold MSA.nseqs; omega
    have hstage : setup_tree env pf.tree pf.input_mod pf.msa pf.subst_mod =
        .error .tree_required := by
      simp [setup_tree, htree, hmod, h2, h3]
    exact ⟨hstage, run_fails_of_setup_tree_error env pf _ hstage⟩

/-- C11 (as amended) on the default options (model REV, reversible in the
sample environment) and the alignment of the sequences `a`, `b`, `c`. -/
theorem C11_three_sequence_tree_witness :
    "(" ++ "a" ++ ",(" ++ "b" ++ "," ++ "c" ++ "))" = "(a,(b,c))" ∧
    setup_tree sample_env (default_options (three_seq_msa 250)).tree
        (default_options (three_seq_msa 250)).input_mod (default_options (three_seq_msa 250)).msa
        (default_options (three_seq_msa 250)).subst_mod =
      .ok { tree := sample_env.tr_new_from_string ("(" ++ "a" ++ ",(" ++ "b" ++ "," ++ "c" ++ "))"),
            free_tree := true,
            tmpchstr := some ("(" ++ "a" ++ ",(" ++ "b" ++ "," ++ "c" ++ "))") } ∧
    run_phyloFit_setup sample_env (default_options (three_seq_msa 250)) ≠
      .error .tree_required ∧
    ∀ s, run_phyloFit_setup sample_env (default_options (three_seq_msa 250)) = .ok s →
      s.tree.tmpchstr = some ("(" ++ "a" ++ ",(" ++ "b" ++ "," ++ "c" ++ "))") :=
  ⟨by decide,
   (C11_three_sequence_tree sample_env (default_options (three_seq_msa 250)) rfl rfl).1
     "a" "b" "c" rfl rfl⟩

/-- C11 as stated fails: for three sequences and the model UNREST, not
reversible in the sample environment, no tree is built and the run ends with
the tree-required error. -/
theorem C11_counterexample :
    sample_env.tm_is_reversible .UNREST = false ∧
    setup_tree sample_env none none (three_seq_msa 250) .UNREST = .error .tree_required ∧
    (run_phyloFit_setup sample_env
        { default_options (three_seq_msa 250) with subst_mod := .UNREST }
      |>.map (fun s => s.tree)) = .error .tree_required := by
  refine ⟨rfl, ?_, ?_⟩
  · simp [setup_tree, three_seq_msa, MSA.nseqs, sample_env]
  · simp [run_phyloFit_setup, open_logs, default_options, check_options,
      check_rate_consts, setup_nonoverlapping, setup_tree, three_seq_msa, MSA.nseqs, sample_env,
      bind, Except.bind, Except.map]

/-! ## Non-overlapping mode -/

/-- The labelling loop, entered at `i` with `m` sites left, appends the labels
of the sites `i, i + 1, ..., i + m - 1`. -/
theorem fill_categories_eq (length cycle_size : Int) (m : Nat) :
    ∀ (i : Int) (acc : List Int), length - i = m →
      fill_categories length cycle_size i acc =
        acc ++ (List.range m).map fun (j : Nat) => Int.tmod (i + (j : Int)) cycle_size + 1 := by
  induction m with
  | zero =>
    intro i acc h
    rw [fill_categories, if_neg (by omega)]
    simp
  | succ m ih =>
    intro i acc h
    rw [fill_categories, if_pos (by omega),
      ih (i + 1) (acc ++ [Int.tmod i cycle_size + 1]) (by push_cast at h; omega)]
    rw [List.range_succ_eq_map, List.map_cons, List.map_map, List.append_assoc]
    simp only [List.singleton_append, Nat.cast_zero, add_zero, List.cons.injEq, true_and,
      List.append_cancel_left_eq]
    apply List.map_congr_left
    intro j _
    simp only [Function.comp_apply, Nat.cast_succ]
    congr 2
    ring

/-- On an alignment of `n` sites the labelling loop writes, for a positive
cycle, the labels `(i mod cycle) + 1` of the sites `0, ..., n - 1`. -/
theorem fill_categories_zero (n : Nat) (cycle : Nat) (hc : 0 < cycle) :
    fill_categories (n : Int) (cycle : Int) 0 [] =
      (List.range n).map fun (i : Nat) => (((i % cycle : Nat) : Int) + 1) := by
  rw [fill_categories_eq (n : Int) (cycle : Int) n 0 [] (by omega)]
  simp only [List.nil_append, zero_add]
  apply List.map_congr_left
  intro i _
  rw [Int.tmod_eq_emod (by omega) (by omega)]
  norm_cast

/-- Among the sites `0, ..., n - 1` the multiples of a positive `m` are
`ceil(n / m)`, that is `(n + m - 1) / m`. -/
theorem count_multiples (m : Nat) (hm : 0 < m) (n : Nat) :
    ((List.range n).filter fun i => decide (i % m = 0)).length = (n + m - 1) / m := by
  induction n with
  | zero =>
    simp only [List.range_zero, List.filter_nil, List.length_nil, Nat.zero_add]
    exact (Nat.div_eq_of_lt (by omega)).symm
  | succ n ih =>
    rw [List.range_succ, List.filter_append, List.length_append, ih]
    have hsucc : n + 1 + m - 1 = (n + m - 1) + 1 := by omega
    rw [hsucc, Nat.succ_div]
    have hdvd : (m ∣ n + m - 1 + 1) ↔ n % m = 0 := by
      have e : n + m - 1 + 1 = n + m := by omega
      rw [e, Nat.dvd_add_self_right, Nat.dvd_iff_mod_eq_zero]
    by_cases h : n % m = 0
    · simp [h, hdvd.mpr h]
    · have hnd : ¬ (m ∣ n + m - 1 + 1) := fun hd => h (hdvd.mp hd)
      simp [h, hnd]

/-- When the set-up ends normally, its alignment is the labelled one and its
category restriction is the one lines 462-468 leave. -/
theorem run_phyloFit_setup_label (env : Env) (pf : phyloFit_struct) (s : Setup)
    (h : run_phyloFit_setup env pf = .ok s) :
    label_sites env pf s.cm pf.msa = .ok (s.msa, s.gff) ∧
    setup_nonoverlapping pf.nonoverlapping pf.cats_to_do_str = .ok s.cats_to_do_str := by
  unfold run_phyloFit_setup at h
  simp only [] at h
  obtain ⟨_, _, h⟩ := bind_eq_ok _ _ _ h
  obtain ⟨_, _, h⟩ := bind_eq_ok _ _ _ h
  obtain ⟨strs, hstrs, h⟩ := bind_eq_ok _ _ _ h
  obtain ⟨_, _, h⟩ := bind_eq_ok _ _ _ h
  obtain ⟨_, _, h⟩ := bind_eq_ok _ _ _ h
  obtain ⟨lab, hlab, h⟩ := bind_eq_ok _ _ _ h
  obtain ⟨_, _, h⟩ := bind_eq_ok _ _ _ h
  obtain ⟨_, _, h⟩ := bind_eq_ok _ _ _ h
  obtain ⟨_, _, h⟩ := bind_eq_ok _ _ _ h
  cases h
  exact ⟨hlab, hstrs⟩

/-- C13: in non-overlapping mode (the branch of line 528: categories are to be
labelled and no GFF labels them), on an alignment of `n` sites with explicit
sequences and a model of order `k`, site `i` (0-based) gets the category
`(i mod (k+1)) + 1`: the labels lie in `1..k+1`, repeat with period `k+1`, and
`ncats = k+1`; the category restriction becomes the single entry `1`, a
restriction given together with non-overlapping being fatal; the sites of
category 1 are the sites `i` divisible by `k+1`, and there are
`ceil(n / (k+1)) = (n + k) / (k+1)` of them. -/
theorem C13_nonoverlapping_categories (env : Env) (pf : phyloFit_struct)
    (cm : Option CategoryMap) (msa : MSA) (k n : Nat)
    (hnon : pf.nonoverlapping = true) (hlab : pf.label_categories = true)
    (hgff : pf.gff = none) (hseqs : msa.has_seqs = true) (hss : msa.has_ss = false)
    (hk : env.tm_order pf.subst_mod = k) (hn : msa.length = n) :
    ∃ cats : List Int,
      label_sites env pf cm msa =
        .ok ({ msa with categories := some cats, ncats := (k : Int) + 1 }, none) ∧
      cats.length = n ∧
      (∀ i : Nat, i < n → cats[i]? = some (((i % (k + 1) : Nat) : Int) + 1)) ∧
      (∀ c ∈ cats, 1 ≤ c ∧ c ≤ (k : Int) + 1) ∧
      (∀ i : Nat, i + (k + 1) < n → cats[i + (k + 1)]? = cats[i]?) ∧
      (∀ i : Nat, i < n → (cats[i]? = some 1 ↔ (k + 1) ∣ i)) ∧
      cats.count 1 = (n + k) / (k + 1) ∧
      (n ≤ (k + 1) * ((n + k) / (k + 1)) ∧ (k + 1) * ((n + k) / (k + 1)) < n + (k + 1)) ∧
      setup_nonoverlapping pf.nonoverlapping none = .ok (some ["1"]) ∧
      (∀ strs, setup_nonoverlapping pf.nonoverlapping (some strs) =
        .error .do_cats_with_nonoverlapping) ∧
      ∀ s, run_phyloFit_setup env pf = .ok s → pf.msa = msa →
        s.msa = { msa with categories := some cats, ncats := (k : Int) + 1 } ∧
        s.cats_to_do_str = some ["1"] := by
  have hfill := fill_categories_zero n (k + 1) (Nat.succ_pos k)
  have hget : ∀ i : Nat, i < n →
      ((List.range n).map fun (i : Nat) => (((i % (k + 1) : Nat) : Int) + 1))[i]? =
        some (((i % (k + 1) : Nat) : Int) + 1) := by
    intro i hi
    simp [List.getElem?_map, List.getElem?_range hi]
  have hstage : ∀ m, label_sites env pf m msa =
      .ok ({ msa with
              categories := some ((List.range n).map
                fun (i : Nat) => (((i % (k + 1) : Nat) : Int) + 1)),
              ncats := (k : Int) + 1 }, none) := by
    intro m
    have hne : ¬ ((k : Int) + 1 = 0 ∧ 0 < (n : Int)) := by omega
    have hfill2 : fill_categories (n : Int) ((k : Int) + 1) 0 [] =
        (List.range n).map fun (i : Nat) => (((i % (k + 1) : Nat) : Int) + 1) := by
      have := hfill
      push_cast at this
      exact this
    simp only [label_sites, hgff, hnon, hlab, hseqs, hss, hk, hn, Bool.and_self, Bool.not_false,
      if_true, hne, if_false, hfill2]
  have hdiv : (k + 1) * ((n + k) / (k + 1)) ≤ n + k := Nat.mul_div_le _ _
  have hdiv2 : n + k < (k + 1) * ((n + k) / (k + 1)) + (k + 1) := by
    have := Nat.lt_div_mul_add (a := n + k) (b := k + 1) (Nat.succ_pos k)
    rw [Nat.mul_comm]
    exact this
  refine ⟨_, hstage cm, by simp, hget, ?_, ?_, ?_, ?_, ⟨by omega, by omega⟩, ?_, ?_, ?_⟩
  · intro c hc
    obtain ⟨i, _, rfl⟩ := List.mem_map.mp hc
    have : i % (k + 1) < k + 1 := Nat.mod_lt _ (Nat.succ_pos k)
    omega
  · intro i hi
    rw [hget _ hi, hget i (by omega), Nat.add_mod_right]
  · intro i hi
    rw [hget i hi, Nat.dvd_iff_mod_eq_zero]
    constructor
    · intro h
      have := Option.some.inj h
      omega
    · intro h
      rw [h]
      rfl
  · have hcm := count_multiples (k + 1) (Nat.succ_pos k) n
    rw [Nat.add_succ_sub_one] at hcm
    rw [List.count_eq_countP, List.countP_map, List.countP_eq_length_filter, ← hcm]
    congr 1
    apply List.filter_congr
    intro i _
    simp only [Function.comp_apply]
    by_cases hz : i % (k + 1) = 0
    · simp [hz]
    · have hne : ((((i % (k + 1) : Nat) : Int) + 1) ≠ 1) := by omega
      rw [decide_eq_false hz]
      exact beq_eq_false_iff_ne.mpr hne
  · simp [setup_nonoverlapping, hnon]
  · intro strs
    simp [setup_nonoverlapping, hnon]
  · intro s hs hmsa
    obtain ⟨hl, hstr⟩ := run_phyloFit_setup_label env pf s hs
    rw [hmsa, hstage] at hl
    have hpair := Except.ok.inj hl
    refine ⟨(congrArg Prod.fst hpair).symm, ?_⟩
    have hnone : pf.cats_to_do_str = none := by
      cases hc : pf.cats_to_do_str with
      | none => rfl
      | some strs => rw [hc] at hstr; simp [setup_nonoverlapping, hnon] at hstr
    rw [hnone] at hstr
    simp [setup_nonoverlapping, hnon] at hstr
    exact hstr.symm

/-- C13 on an alignment of 7 sites and a model of order 2: the labels are
1, 2, 3, 1, 2, 3, 1 and three sites have category 1. -/
theorem C13_nonoverlapping_categories_witness :
    fill_categories 7 3 0 [] = [1, 2, 3, 1, 2, 3, 1] ∧
    ∃ cats : List Int,
      label_sites order2_env { default_options (three_seq_msa 7) with nonoverlapping := true }
          none (three_seq_msa 7) =
        .ok ({ three_seq_msa 7 with categories := some cats, ncats := ((2 : Nat) : Int) + 1 },
             none) ∧
      cats.length = 7 ∧
      (∀ i : Nat, i < 7 → cats[i]? = some (((i % (2 + 1) : Nat) : Int) + 1)) ∧
      (∀ c ∈ cats, 1 ≤ c ∧ c ≤ ((2 : Nat) : Int) + 1) ∧
      (∀ i : Nat, i + (2 + 1) < 7 → cats[i + (2 + 1)]? = cats[i]?) ∧
      (∀ i : Nat, i < 7 → (cats[i]? = some 1 ↔ (2 + 1) ∣ i)) ∧
      cats.count 1 = (7 + 2) / (2 + 1) ∧
      (7 ≤ (2 + 1) * ((7 + 2) / (2 + 1)) ∧ (2 + 1) * ((7 + 2) / (2 + 1)) < 7 + (2 + 1)) ∧
      setup_nonoverlapping true none = .ok (some ["1"]) ∧
      (∀ strs, setup_nonoverlapping true (some strs) = .error .do_cats_with_nonoverlapping) ∧
      ∀ s, run_phyloFit_setup order2_env
          { default_options (three_seq_msa 7) with nonoverlapping := true } = .ok s →
        three_seq_msa 7 = three_seq_msa 7 →
        s.msa = { three_seq_msa 7 with categories := some cats, ncats := ((2 : Nat) : Int) + 1 } ∧
        s.cats_to_do_str = some ["1"] :=
  ⟨by simp [fill_categories, Int.tmod],
   C13_nonoverlapping_categories order2_env
     { default_options (three_seq_msa 7) with nonoverlapping := true } none (three_seq_msa 7) 2 7
     rfl rfl rfl rfl rfl rfl rfl⟩

/-! ## Coverage by the generated windows -/

/-- What the generated windows cover, for a length `L >= 2` and
`1 <= H <= S` with `L + S` at most `INT_MAX`: every position from 1 to `L - 1`,
and the last position `L` unless the windows do not overlap (`S = H`) and `H`
divides `L - 1`. -/
theorem generated_windows_coverage (L S H : Int) (hL : 2 ≤ L) (hH : 1 ≤ H) (hHS : H ≤ S)
    (hLS : L + S ≤ INT_MAX) :
    ∃ coords, setup_window_coords L S H none = .ok (some coords) ∧
      (∀ p : Int, 1 ≤ p → p < L → ∃ w ∈ window_pairs coords, w.1 ≤ p ∧ p ≤ w.2) ∧
      ((∃ w ∈ window_pairs coords, w.1 ≤ L ∧ L ≤ w.2) ↔ ¬ (S = H ∧ H ∣ L - 1)) := by
  have hpos : 0 < H := by omega
  have hcount := window_starts_count L H (by omega) hH
  have hLH : L + H ≤ INT_MAX := by unfold INT_MAX at hLS ⊢; omega
  have hmem : ∀ w : Int × Int,
      w ∈ window_pairs ([] ++ (List.range ((L - 2 + H) / H).toNat).flatMap
        fun (k : Nat) => [1 + (k : Int) * H, min (1 + (k : Int) * H + S - 1) L]) ↔
      ∃ k : Nat, 1 + (k : Int) * H < L ∧
        w = (1 + (k : Int) * H, min (1 + (k : Int) * H + S - 1) L) := by
    intro w
    rw [List.nil_append, window_pairs_flatMap, List.mem_map]
    constructor
    · rintro ⟨k, hk, rfl⟩
      exact ⟨k, (hcount k).mp (List.mem_range.mp hk), rfl⟩
    · rintro ⟨k, hk, rfl⟩
      exact ⟨k, List.mem_range.mpr ((hcount k).mpr hk), rfl⟩
  have hset : setup_window_coords L S H none =
      .ok (some ([] ++ (List.range ((L - 2 + H) / H).toNat).flatMap
        fun (k : Nat) => [1 + (k : Int) * H, min (1 + (k : Int) * H + S - 1) L])) := by
    rw [List.nil_append]
    exact setup_window_coords_eq L S H (by omega) (by omega) hH hLS hLH _
      (fun k hk => (hcount k).mp hk)
      (fun hlt => Nat.lt_irrefl _ ((hcount _).mpr hlt))
  refine ⟨_, hset, ?_, ?_⟩
  · intro p hp1 hpL
    have hq : 0 ≤ (p - 1) / H := Int.ediv_nonneg (by omega) (by omega)
    have hle : (p - 1) / H * H ≤ p - 1 := Int.ediv_mul_le _ (by omega)
    have hlt : p - 1 < ((p - 1) / H + 1) * H := Int.lt_ediv_add_one_mul_self _ hpos
    have e : ((p - 1) / H + 1) * H = (p - 1) / H * H + H := by ring
    refine ⟨(1 + (((p - 1) / H).toNat : Int) * H,
      min (1 + (((p - 1) / H).toNat : Int) * H + S - 1) L), ?_, ?_, ?_⟩
    · rw [hmem]
      refine ⟨((p - 1) / H).toNat, ?_, rfl⟩
      rw [Int.toNat_of_nonneg hq]
      omega
    · simp only
      rw [Int.toNat_of_nonneg hq]
      omega
    · simp only
      rw [Int.toNat_of_nonneg hq]
      omega
  · constructor
    · rintro ⟨w, hw, hw1, hw2⟩ ⟨hSH, hdvd⟩
      rw [hmem] at hw
      obtain ⟨k, hk, rfl⟩ := hw
      simp only at hw1 hw2
      obtain ⟨c, hc⟩ := hdvd
      -- the start k lies below L = 1 + H c, so k < c and the window ends before L
      have hkc : (k : Int) < c := by
        by_contra hge
        have : c ≤ (k : Int) := by omega
        have := Int.mul_le_mul_of_nonneg_left this (by omega : (0 : Int) ≤ H)
        have e2 : H * (k : Int) = (k : Int) * H := by ring
        omega
      have h1 : (k : Int) + 1 ≤ c := by omega
      have h2 := Int.mul_le_mul_of_nonneg_left h1 (by omega : (0 : Int) ≤ H)
      have e3 : H * ((k : Int) + 1) = (k : Int) * H + H := by ring
      omega
    · intro hnot
      -- the last start is 1 + k H with k = (L - 2) / H
      have hq : 0 ≤ (L - 2) / H := Int.ediv_nonneg (by omega) (by omega)
      have hle : (L - 2) / H * H ≤ L - 2 := Int.ediv_mul_le _ (by omega)
      have hlt : L - 2 < ((L - 2) / H + 1) * H := Int.lt_ediv_add_one_mul_self _ hpos
      have e : ((L - 2) / H + 1) * H = (L - 2) / H * H + H := by ring
      refine ⟨(1 + (((L - 2) / H).toNat : Int) * H,
        min (1 + (((L - 2) / H).toNat : Int) * H + S - 1) L), ?_, ?_, ?_⟩
      · rw [hmem]
        refine ⟨((L - 2) / H).toNat, ?_, rfl⟩
        rw [Int.toNat_of_nonneg hq]
        omega
      · simp only
        rw [Int.toNat_of_nonneg hq]
        omega
      · simp only
        rw [Int.toNat_of_nonneg hq]
        by_cases hSH : S = H
        · have hnd : ¬ (H ∣ L - 1) := fun hd => hnot ⟨hSH, hd⟩
          have hne : (L - 2) / H * H + H ≠ L - 1 := by
            intro heq
            apply hnd
            exact ⟨(L - 2) / H + 1, by rw [← heq]; ring⟩
          have : L ≤ 1 + (L - 2) / H * H + S - 1 := by omega
          omega
        · have : L ≤ 1 + (L - 2) / H * H + S - 1 := by omega
          omega

/-- C18 does not hold on the code: for `L = 3`, `S = H = 2` the only generated
window is (1,2), which leaves position 3 uncovered; for `L = 5`, `S = H = 2`
the windows are (1,2), (3,4) and position 5 is uncovered; for `L = 1` no
window is generated at all. The loop of line 569 stops at `i < msa->length`,
so a start at position `L` itself is never taken. -/
theorem C18_last_position_uncovered :
    (setup_window_coords 3 2 2 none = .ok (some [1, 2]) ∧
      ¬ ∃ p ∈ window_pairs [1, 2], p.1 ≤ 3 ∧ (3 : Int) ≤ p.2) ∧
    (setup_window_coords 5 2 2 none = .ok (some [1, 2, 3, 4]) ∧
      ¬ ∃ p ∈ window_pairs [1, 2, 3, 4], p.1 ≤ 5 ∧ (5 : Int) ≤ p.2) ∧
    (setup_window_coords 1 1 1 none = .ok (some []) ∧ window_pairs [] = []) := by
  refine ⟨⟨?_, ?_⟩, ⟨?_, ?_⟩, ?_, ?_⟩
  · simp [setup_window_coords, push_windows, in_int_range, INT_MIN, INT_MAX, Int.tdiv,
      Except.map]
  · simp [window_pairs]
  · simp [setup_window_coords, push_windows, in_int_range, INT_MIN, INT_MAX, Int.tdiv,
      Except.map]
  · simp [window_pairs]
  · simp [setup_window_coords, push_windows, in_int_range, INT_MIN, INT_MAX, Int.tdiv,
      Except.map]
  · simp [window_pairs]

/-! ## The model file name -/

/-- A string that is not empty has a length that is not 0. -/
theorem length_ne_zero_of_ne_empty (s : String) (h : s ≠ "") : s.length ≠ 0 := by
  intro h0
  apply h
  apply String.ext
  exact List.length_eq_zero.mp h0

/-- C12 (as amended): with no category map, for every output root that is not
empty the model file name is the root, then `.win-<k>` (`k = win/2 + 1`) when
windowing is active, then `.<category number>` when the category is not `-1`
and non-overlapping mode is off, then `.mod`; for the empty root the name is
built in the same way except that the first component appended (`win-<k>`, or
else the category number) is not preceded by a dot. -/
theorem C12_model_fname (uenv : UnitEnv) (root : String) (windowing : Bool) (win cat : Int)
    (nonoverlapping : Bool) :
    (root ≠ "" →
      model_fname uenv (some root) windowing win cat nonoverlapping none =
        specified_model_fname root windowing win cat nonoverlapping) ∧
    model_fname uenv (some "") windowing win cat nonoverlapping none =
      (if windowing then
        "win-" ++ toString (Int.tdiv win 2 + 1) ++
          (if cat ≠ -1 ∧ nonoverlapping = false then "." ++ toString cat else "")
       else if cat ≠ -1 ∧ nonoverlapping = false then toString cat else "") ++ ".mod" := by
  have hdot : (".win-" : String) = "." ++ "win-" := by decide
  have h4 : ("win-" : String).length = 4 := by decide
  have hE : ∀ P : Prop, P → (P = True) := fun P h => eq_true h
  have hF : ∀ P : Prop, ¬ P → (P = False) := fun P h => eq_false h
  constructor
  · intro hroot
    have hlen := hE _ (length_ne_zero_of_ne_empty root hroot)
    have hwlen : ∀ b : String, ((root ++ b).length ≠ 0) = True := by
      intro b
      apply hE
      have := length_ne_zero_of_ne_empty root hroot
      simp only [String.length_append]
      omega
    unfold model_fname specified_model_fname
    cases windowing <;> by_cases hc : cat ≠ -1 ∧ nonoverlapping = false
    · simp only [hE _ hc, hlen, Bool.false_eq_true, if_false, if_true, Option.isSome_some,
        String.append_empty, String.append_assoc]
    · simp only [hF _ hc, hlen, Bool.false_eq_true, if_false, if_true, Option.isSome_some,
        String.append_empty, String.append_assoc]
    · simp only [hE _ hc, hlen, hwlen, if_true, Option.isSome_some, hdot,
        String.append_empty, String.append_assoc]
    · simp only [hF _ hc, hlen, hwlen, if_false, if_true, Option.isSome_some, hdot,
        String.append_empty, String.append_assoc]
  · have hwlen : ∀ b : String, (("win-" ++ b).length ≠ 0) = True := by
      intro b
      apply hE
      simp only [String.length_append, h4]
      omega
    have h0 : ((("" : String).length ≠ 0)) = False := hF _ (by decide)
    unfold model_fname
    cases windowing <;> by_cases hc : cat ≠ -1 ∧ nonoverlapping = false
    · simp only [hE _ hc, h0, Bool.false_eq_true, if_false, if_true, Option.isSome_some,
        String.empty_append, String.append_empty, String.append_assoc]
    · simp only [hF _ hc, h0, Bool.false_eq_true, if_false, if_true, Option.isSome_some,
        String.empty_append, String.append_empty, String.append_assoc]
    · simp only [hE _ hc, h0, hwlen, if_false, if_true, Option.isSome_some,
        String.empty_append, String.append_empty, String.append_assoc]
    · simp only [hF _ hc, h0, hwlen, if_false, if_true, Option.isSome_some,
        String.empty_append, String.append_empty, String.append_assoc]

/-- C12 (as amended) on the root `out`, the second window and category 3. -/
theorem C12_model_fname_witness :
    ("out" : String) ≠ "" ∧
    specified_model_fname "out" true 2 3 false = "out.win-2.3.mod" ∧
    model_fname sample_unit_env (some "out") true 2 3 false none =
      specified_model_fname "out" true 2 3 false :=
  ⟨by decide, by decide,
   (C12_model_fname sample_unit_env "out" true 2 3 false).1 (by decide)⟩

/-- C12 as stated fails for the empty root: the model file of the first window
is `win-1.mod`, not `.win-1.mod`, and that of category 3 without windows is
`3.mod`, not `.3.mod`. -/
theorem C12_counterexample :
    (model_fname sample_unit_env (some "") true 0 (-1) false none = "win-1.mod" ∧
      specified_model_fname "" true 0 (-1) false = ".win-1.mod") ∧
    (model_fname sample_unit_env (some "") false 0 3 false none = "3.mod" ∧
      specified_model_fname "" false 0 3 false = ".3.mod") := by
  decide

/-! ## The estimation mode of a unit's model -/

/-- Resolving the subtree changes neither the branch-length mode nor the
rate-matrix switch of the model. -/
theorem configure_subtree_keeps (uenv : UnitEnv) (name : Option String) (m m2 : TreeModel)
    (h : configure_subtree uenv name m = .ok m2) :
    m2.estimate_branchlens = m.estimate_branchlens ∧ m2.estimate_ratemat = m.estimate_ratemat ∧
    m2.estimate_backgd = m.estimate_backgd := by
  unfold configure_subtree at h
  split at h
  · cases h; exact ⟨rfl, rfl, rfl⟩
  · simp only at h
    split at h
    · cases h
    · split at h
      · split at h
        · cases h; exact ⟨rfl, rfl, rfl⟩
        · split at h
          · cases h; exact ⟨rfl, rfl, rfl⟩
          · cases h
      · cases h; exact ⟨rfl, rfl, rfl⟩

/-- Resolving the subtree ends normally exactly when the node exists and the
suffix is empty, `loss` or `gain`. -/
theorem configure_subtree_ok_iff (uenv : UnitEnv) (name : String) (m : TreeModel) :
    (∃ m2, configure_subtree uenv (some name) m = .ok m2) ↔
      (uenv.tr_get_node m.tree (uenv.str_root name)).isSome = true ∧
      ((uenv.str_suffix name).length = 0 ∨ uenv.str_suffix name = "loss" ∨
        uenv.str_suffix name = "gain") := by
  unfold configure_subtree
  simp only
  cases hnode : uenv.tr_get_node m.tree (uenv.str_root name) with
  | none => simp
  | some node =>
    simp only [Option.isSome_some, true_and]
    by_cases hlen : (uenv.str_suffix name).length > 0
    · rw [if_pos hlen]
      by_cases hl : uenv.str_suffix name = "loss"
      · rw [if_pos hl]
        exact ⟨fun _ => Or.inr (Or.inl hl), fun _ => ⟨_, rfl⟩⟩
      · rw [if_neg hl]
        by_cases hg : uenv.str_suffix name = "gain"
        · rw [if_pos hg]
          exact ⟨fun _ => Or.inr (Or.inr hg), fun _ => ⟨_, rfl⟩⟩
        · rw [if_neg hg]
          constructor
          · rintro ⟨m2, hm2⟩; cases hm2
          · rintro (h0 | h1 | h2)
            · omega
            · exact absurd h1 hl
            · exact absurd h2 hg
    · rw [if_neg hlen]
      exact ⟨fun _ => Or.inl (by omega), fun _ => ⟨_, rfl⟩⟩

/-- The precedence of the branch-length modes in `configure_estimation`, for
the value `eso` of `pf->estimate_scale_only` left by lines 447-451. -/
theorem configure_estimation_mode (uenv : UnitEnv) (pf : phyloFit_struct) (eso : Bool)
    (mod mod2 : TreeModel) (h : configure_estimation uenv pf eso mod = .ok mod2) :
    mod2.estimate_branchlens =
      (if pf.no_branchlens then .TM_BRANCHLENS_NONE
       else if eso then .TM_SCALE_ONLY
       else if pf.assume_clock then .TM_BRANCHLENS_CLOCK
       else mod.estimate_branchlens) ∧
    mod2.estimate_ratemat = (if pf.no_rates then false else mod.estimate_ratemat) := by
  unfold configure_estimation at h
  simp only [bind, Except.bind, pure, Except.pure] at h
  cases heso : eso
  · cases hac : pf.assume_clock <;> cases hnr : pf.no_rates <;> cases hbg : pf.estimate_backgd <;>
      cases hnb : pf.no_branchlens <;>
      simp only [heso, hac, hnr, hbg, hnb, Bool.or_self, Bool.or_true, Bool.or_false,
        Bool.false_eq_true, if_false, if_true] at h <;>
      cases h <;> exact ⟨rfl, rfl⟩
  · simp only [heso, Bool.true_or, if_true] at h
    cases hsub : configure_subtree uenv pf.subtree_name
        { mod with use_conditionals := pf.use_conditionals,
                   estimate_branchlens := .TM_SCALE_ONLY } with
    | error e => rw [hsub] at h; cases h
    | ok m2 =>
      rw [hsub] at h
      obtain ⟨hb, hr, _⟩ := configure_subtree_keeps uenv _ _ _ hsub
      cases hnr : pf.no_rates <;> cases hnb : pf.no_branchlens <;>
        simp only [hnr, hnb, Bool.false_eq_true, if_false, if_true] at h <;>
        cases h <;> simp [hb, hr]

/-- The estimation switches are set and the unit goes on, unless scale-only
estimation needs a subtree that cannot be resolved. -/
theorem configure_estimation_ok_iff (uenv : UnitEnv) (pf : phyloFit_struct) (eso : Bool)
    (mod : TreeModel) :
    (∃ mod2, configure_estimation uenv pf eso mod = .ok mod2) ↔
      (eso = true → ∃ m2, configure_subtree uenv pf.subtree_name
        { mod with use_conditionals := pf.use_conditionals,
                   estimate_branchlens := .TM_SCALE_ONLY } = .ok m2) := by
  unfold configure_estimation
  simp only [bind, Except.bind, pure, Except.pure]
  cases heso : eso
  · constructor
    · intro _ hc; cases hc
    · intro _
      cases hac : pf.assume_clock <;> cases hnr : pf.no_rates <;>
        cases hbg : pf.estimate_backgd <;>
        simp only [hac, hnr, hbg, Bool.or_self, Bool.or_true, Bool.or_false,
          Bool.false_eq_true, if_false, if_true] <;>
        exact ⟨_, rfl⟩
  · simp only [Bool.true_or, if_true, forall_const]
    cases hsub : configure_subtree uenv pf.subtree_name
        { mod with use_conditionals := pf.use_conditionals,
                   estimate_branchlens := .TM_SCALE_ONLY } with
    | error e =>
      constructor
      · rintro ⟨m, hm⟩; cases hm
      · rintro ⟨m, hm⟩; cases hm
    | ok m2 => exact ⟨fun _ => ⟨m2, rfl⟩, fun _ => ⟨_, rfl⟩⟩

/-- When the set-up ends normally, its scale-only switch is the option, set
also when a subtree is named (lines 447-451). -/
theorem run_phyloFit_setup_scale_only (env : Env) (pf : phyloFit_struct) (s : Setup)
    (h : run_phyloFit_setup env pf = .ok s) :
    s.estimate_scale_only = (pf.estimate_scale_only || pf.subtree_name.isSome) := by
  unfold run_phyloFit_setup at h
  simp only [] at h
  obtain ⟨_, _, h⟩ := bind_eq_ok _ _ _ h
  obtain ⟨_, _, h⟩ := bind_eq_ok _ _ _ h
  obtain ⟨_, _, h⟩ := bind_eq_ok _ _ _ h
  obtain ⟨_, _, h⟩ := bind_eq_ok _ _ _ h
  obtain ⟨_, _, h⟩ := bind_eq_ok _ _ _ h
  obtain ⟨_, _, h⟩ := bind_eq_ok _ _ _ h
  obtain ⟨_, _, h⟩ := bind_eq_ok _ _ _ h
  obtain ⟨_, _, h⟩ := bind_eq_ok _ _ _ h
  obtain ⟨_, _, h⟩ := bind_eq_ok _ _ _ h
  cases h
  rfl

/-- C17: the branch-length estimation mode left on a unit's model is
`TM_BRANCHLENS_NONE` whenever `no_branchlens` is set; otherwise `TM_SCALE_ONLY`
whenever `estimate_scale_only` is set or a subtree is named; otherwise
`TM_BRANCHLENS_CLOCK` when `assume_clock` is set; otherwise the mode the model
had. The rate-matrix switch is turned off when `no_rates` is set and left as
it was otherwise. The switches are always set when no subtree is named; with a
subtree named they are set exactly when its node exists and its suffix is
empty, `loss` or `gain` (the run ends otherwise). -/
theorem C17_estimation_mode (uenv : UnitEnv) (pf : phyloFit_struct) (mod : TreeModel) :
    (∀ mod2, configure_estimation uenv pf (pf.estimate_scale_only || pf.subtree_name.isSome)
        mod = .ok mod2 →
      mod2.estimate_branchlens =
        (if pf.no_branchlens then .TM_BRANCHLENS_NONE
         else if pf.estimate_scale_only || pf.subtree_name.isSome then .TM_SCALE_ONLY
         else if pf.assume_clock then .TM_BRANCHLENS_CLOCK
         else mod.estimate_branchlens) ∧
      mod2.estimate_ratemat = (if pf.no_rates then false else mod.estimate_ratemat)) ∧
    (pf.subtree_name = none →
      ∃ mod2, configure_estimation uenv pf (pf.estimate_scale_only || pf.subtree_name.isSome)
        mod = .ok mod2) ∧
    (∀ name, pf.subtree_name = some name →
      ((∃ mod2, configure_estimation uenv pf (pf.estimate_scale_only || pf.subtree_name.isSome)
          mod = .ok mod2) ↔
        (uenv.tr_get_node mod.tree (uenv.str_root name)).isSome = true ∧
        ((uenv.str_suffix name).length = 0 ∨ uenv.str_suffix name = "loss" ∨
          uenv.str_suffix name = "gain"))) ∧
    (∀ (env : Env) (s : Setup), run_phyloFit_setup env pf = .ok s →
      s.estimate_scale_only = (pf.estimate_scale_only || pf.subtree_name.isSome)) := by
  refine ⟨fun mod2 h => configure_estimation_mode uenv pf _ mod mod2 h, ?_, ?_,
    fun env s h => run_phyloFit_setup_scale_only env pf s h⟩
  · intro hnone
    rw [configure_estimation_ok_iff]
    intro _
    rw [hnone]
    exact ⟨_, rfl⟩
  · intro name hname
    rw [configure_estimation_ok_iff, hname]
    simp only [Option.isSome_some, Bool.or_true, forall_const]
    exact configure_subtree_ok_iff uenv name _

/-- C17 on four settings of the default options: `no_branchlens` wins over
scale-only and clock, scale-only over clock, clock over the mode of the model,
and `no_rates` alone turns the rate-matrix switch off. -/
theorem C17_estimation_mode_witness :
    (configure_estimation sample_unit_env
        { default_options (two_seq_msa 250) with
          no_branchlens := true, estimate_scale_only := true, assume_clock := true }
        true (two_leaf_model 1)).map (fun m => (m.estimate_branchlens, m.estimate_ratemat)) =
      .ok (.TM_BRANCHLENS_NONE, true) ∧
    (configure_estimation sample_unit_env
        { default_options (two_seq_msa 250) with
          estimate_scale_only := true, assume_clock := true }
        true (two_leaf_model 1)).map (fun m => (m.estimate_branchlens, m.estimate_ratemat)) =
      .ok (.TM_SCALE_ONLY, true) ∧
    (configure_estimation sample_unit_env
        { default_options (two_seq_msa 250) with assume_clock := true, no_rates := true }
        false (two_leaf_model 1)).map (fun m => (m.estimate_branchlens, m.estimate_ratemat)) =
      .ok (.TM_BRANCHLENS_CLOCK, false) ∧
    ∃ mod2, configure_estimation sample_unit_env (default_options (two_seq_msa 250))
        ((default_options (two_seq_msa 250)).estimate_scale_only ||
          (default_options (two_seq_msa 250)).subtree_name.isSome) (two_leaf_model 1) =
        .ok mod2 :=
  ⟨rfl, rfl, rfl,
   (C17_estimation_mode sample_unit_env (default_options (two_seq_msa 250))
     (two_leaf_model 1)).2.1 rfl⟩

/-! ## The window summary -/

/-- The loop over the sequences, entered at `j` with `m` sequences left,
appends one field per sequence. -/
theorem print_seq_gc_eq (nseqs : Int) (m : Nat) :
    ∀ (j : Int) (acc : List SummaryField), nseqs - j = m →
      print_seq_gc nseqs j acc =
        acc ++ (List.range m).map fun (k : Nat) => SummaryField.seq_gc (j + (k : Int)) := by
  induction m with
  | zero =>
    intro j acc h
    rw [print_seq_gc, if_neg (by omega)]
    simp
  | succ m ih =>
    intro j acc h
    rw [print_seq_gc, if_pos (by omega), ih (j + 1) (acc ++ [SummaryField.seq_gc j])
      (by push_cast at h; omega)]
    rw [List.range_succ_eq_map, List.map_cons, List.map_map, List.append_assoc]
    simp only [List.singleton_append, Nat.cast_zero, add_zero, List.cons.injEq, true_and,
      List.append_cancel_left_eq]
    apply List.map_congr_left
    intro k _
    simp only [Function.comp_apply, Nat.cast_succ]
    congr 1
    ring

/-- C16 does not hold on the code: the header row has the eight fields win,
beg, end, cat, GC, CpG, ninf, t, but every data row has one more field per
sequence, `8 + nseqs` in all (line 375 prints `gc[j]` for every sequence
between the GC and the CpG fields); with two sequences a data row has ten
fields. -/
theorem C16_data_row_has_extra_fields :
    (∀ (win cat : Int) (ninf : Nat) (nseqs : Int),
      print_window_summary none win cat ninf nseqs true =
        .ok [.title "win", .title "beg", .title "end", .title "cat", .title "GC",
             .title "CpG", .title "ninf", .title "t"]) ∧
    (∀ (coords : List Int) (win cat : Int) (ninf nseqs : Nat) (row : List SummaryField),
      print_window_summary (some coords) win cat ninf nseqs false = .ok row →
        row.length = 8 + nseqs) ∧
    print_window_summary (some [1, 100]) 0 (-1) 100 2 false =
      .ok [.win_index 1, .win_beg 1, .win_end 100, .category (-1), .backgd_gc,
           .seq_gc 0, .seq_gc 1, .cpg, .ninf_sites 100, .total_len] := by
  refine ⟨?_, ?_, ?_⟩
  · intro win cat ninf nseqs
    rfl
  · intro coords win cat ninf nseqs row h
    unfold print_window_summary at h
    simp only [Bool.false_eq_true, if_false] at h
    split at h
    · cases h
    · split at h
      · rw [print_seq_gc_eq (nseqs : Int) nseqs 0 _ (by omega)] at h
        cases h
        simp
        omega
      · cases h
  · simp [print_window_summary, print_seq_gc, Int.tdiv]

/-! ## The threshold on informative sites -/

/-- For a threshold that is not negative the test of line 732 is the
comparison of the two numbers. -/
theorem insufficient_sites_nonneg (ninf : Nat) (t : Int) (hn : ninf < 2 ^ 32)
    (h0 : 0 ≤ t) (ht : t < 2 ^ 31) :
    insufficient_sites ninf t = true ↔ (ninf : Int) < t := by
  unfold insufficient_sites
  rw [decide_eq_true_iff, Int.emod_eq_of_lt (by omega) (by omega),
    Int.emod_eq_of_lt h0 (by omega)]

/-- For a negative threshold the test of line 732 compares with
`2^32 + threshold`: it holds for every count below that number. -/
theorem insufficient_sites_neg (ninf : Nat) (t : Int) (h0 : t < 0) (ht : -(2 ^ 31) ≤ t)
    (hn : (ninf : Int) < 2 ^ 32 + t) : insufficient_sites ninf t = true := by
  unfold insufficient_sites
  rw [decide_eq_true_iff, Int.emod_eq_of_lt (by omega) (by omega)]
  have : t % 2 ^ 32 = t + 2 ^ 32 := by
    rw [← Int.add_emod_self, Int.emod_eq_of_lt (by omega) (by omega)]
  omega

/-- The fit or the likelihood of a unit never records a skip. -/
theorem skipped_not_mem_score_or_fit (pf : phyloFit_struct) (msa : MSA) (i : Int)
    (events : List UnitEvent) (h : score_or_fit pf msa i = .ok events) :
    UnitEvent.skipped ∉ events := by
  unfold score_or_fit at h
  split at h
  · split at h
    · split at h
      · cases h
      · cases h; simp
    · cases h; simp
  · cases h
    simp only [List.mem_append, List.mem_singleton, not_or]
    refine ⟨⟨⟨⟨⟨?_, ?_⟩, ?_⟩, ?_⟩, ?_⟩, ?_⟩
    · split
      · simp only [List.mem_append, List.mem_singleton, not_or]
        refine ⟨by simp, ?_⟩
        split <;> simp
      · simp
    · split
      · simp
      · split <;> simp
    · split <;> simp
    · split <;> simp
    · split <;> simp
    · split <;> simp

/-- The posterior statistics of a unit never record a skip. -/
theorem skipped_not_mem_unit_posteriors (pf : phyloFit_struct) (mod : TreeModel) (cat : Int)
    (events : List UnitEvent) (h : unit_posteriors pf mod cat = .ok events) :
    UnitEvent.skipped ∉ events := by
  unfold unit_posteriors at h
  split at h
  · cases h; simp
  · split at h
    · split at h
      · cases h; simp
      · cases h
    · cases h; simp

/-- The outputs of a unit never record a skip. -/
theorem skipped_not_mem_unit_output (uenv : UnitEnv) (pf : phyloFit_struct) (s : Setup)
    (mod : TreeModel) (msa : MSA) (win cat : Int) (ninf : Nat) (events : List UnitEvent)
    (h : unit_output uenv pf s mod msa win cat ninf = .ok events) :
    UnitEvent.skipped ∉ events := by
  unfold unit_output at h
  simp only [] at h
  obtain ⟨post, hpost, h⟩ := bind_eq_ok _ _ _ h
  have hp := skipped_not_mem_unit_posteriors pf mod cat post hpost
  have hw : UnitEvent.skipped ∉
      (if pf.output_fname_root.isSome then
        [UnitEvent.model_written (model_fname uenv pf.output_fname_root s.window_coords.isSome
          win cat pf.nonoverlapping s.cm)] else []) := by
    split <;> simp
  have hk : UnitEvent.skipped ∉
      ((if pf.estimated_models then [UnitEvent.model_kept] else []) ++
        (if pf.model_labels then
          [UnitEvent.label_kept (model_fname uenv pf.output_fname_root s.window_coords.isSome
            win cat pf.nonoverlapping s.cm)] else [])) := by
    simp only [List.mem_append, not_or]
    constructor <;> (split <;> simp)
  split at h
  · obtain ⟨summary, hsum, h⟩ := bind_eq_ok _ _ _ h
    cases h
    have hs : UnitEvent.skipped ∉ summary := by
      cases hrow : print_window_summary s.window_coords win cat ninf msa.nseqs false with
      | error e => rw [hrow] at hsum; cases hsum
      | ok fields => rw [hrow] at hsum; cases hsum; simp
    simp only [List.mem_append, not_or]
    exact ⟨⟨⟨hw, by simpa only [List.mem_append, not_or] using hk⟩, hp⟩, hs⟩
  · obtain ⟨summary, hsum, h⟩ := bind_eq_ok _ _ _ h
    cases hsum
    cases h
    simp only [List.mem_append, not_or]
    exact ⟨⟨⟨hw, by simpa only [List.mem_append, not_or] using hk⟩, hp⟩, by simp⟩

/-- In a unit that ends normally, the skip is the only event when the test of
line 732 holds, and is no event at all when it does not. -/
theorem process_unit_skip (uenv : UnitEnv) (pf : phyloFit_struct) (s : Setup) (msa : MSA)
    (win i cat : Int) (events : List UnitEvent)
    (h : process_unit uenv pf s msa win i cat = .ok events) :
    (insufficient_sites (uenv.msa_ninformative_sites msa cat) pf.nsites_threshold = true →
      events = [.skipped]) ∧
    (insufficient_sites (uenv.msa_ninformative_sites msa cat) pf.nsites_threshold = false →
      UnitEvent.skipped ∉ events) := by
  unfold process_unit at h
  simp only [] at h
  obtain ⟨mod, _, h⟩ := bind_eq_ok _ _ _ h
  obtain ⟨_, _, h⟩ := bind_eq_ok _ _ _ h
  split at h
  · rename_i hins
    cases h
    exact ⟨fun _ => rfl, fun hf => by rw [hins] at hf; cases hf⟩
  · rename_i hins
    refine ⟨fun ht => absurd ht hins, fun _ => ?_⟩
    have hpars : UnitEvent.skipped ∉
        (if pf.init_parsimony then [UnitEvent.parsimony_cost] else []) := by
      split <;> simp
    split at h
    · cases h
      exact hpars
    · obtain ⟨fit, hfit, h⟩ := bind_eq_ok _ _ _ h
      obtain ⟨output, hout, h⟩ := bind_eq_ok _ _ _ h
      cases h
      simp only [List.mem_append, not_or]
      exact ⟨⟨hpars, skipped_not_mem_score_or_fit pf msa i fit hfit⟩,
        skipped_not_mem_unit_output uenv pf s _ msa win cat _ output hout⟩

/-- A unit whose model is configured and pruned without a fatal error is
skipped as soon as the test of line 732 holds. -/
theorem process_unit_skipped (uenv : UnitEnv) (pf : phyloFit_struct) (s : Setup) (msa : MSA)
    (win i cat : Int) (mod : TreeModel)
    (hconf : configure_estimation uenv pf s.estimate_scale_only (unit_model uenv pf s) = .ok mod)
    (hprune : check_pruned (uenv.tm_prune mod msa).2 mod.tree.nnodes = .ok ())
    (hins : insufficient_sites (uenv.msa_ninformative_sites msa cat) pf.nsites_threshold = true) :
    process_unit uenv pf s msa win i cat = .ok [.skipped] := by
  unfold process_unit
  simp only [hconf, hprune, hins, bind, Except.bind, if_true, pure, Except.pure]

/-- C14 does not hold on the code for a negative threshold: with
`nsites_threshold = -1` a unit of 100 informative sites is skipped, although
100 is not smaller than -1; line 732 compares the `unsigned int` count with
the threshold converted to `unsigned int`. With the threshold 0 the same unit
is fitted and its model written. -/
theorem C14_negative_threshold_skips :
    (insufficient_sites 100 (-1) = true ∧ ¬ ((100 : Int) < -1)) ∧
    process_unit sample_unit_env { default_options (two_seq_msa 250) with nsites_threshold := -1 }
      (sample_setup none) (two_seq_msa 250) 0 0 (-1) = .ok [.skipped] ∧
    process_unit sample_unit_env { default_options (two_seq_msa 250) with nsites_threshold := 0 }
      (sample_setup none) (two_seq_msa 250) 0 0 (-1) =
      .ok [.stats_extracted, .params_default, .stats_compacted, .fitted,
           .model_written "phyloFit.mod"] := by
  refine ⟨⟨by decide, by decide⟩, rfl, rfl⟩

/-! ## The posterior-statistics files of a unit -/

/-- When `print_post_prob_stats` returns, its events are the allocation, the
computation, the three optional files and the release. -/
theorem print_post_prob_stats_trace (mod : TreeModel) (root : String) (b1 b2 b3 : Bool)
    (cat : Int) (trace : List Event) (m : TreeModel)
    (h : print_post_prob_stats mod root b1 b2 b3 cat = (trace, .ok m)) :
    trace = [.alloc_posteriors, .compute_posteriors] ++
      (post_prob_section b1 root cat ".postprob" ++
       post_prob_section b2 root cat ".expsub" ++
       post_prob_section b3 root cat ".exptotsub") ++ [.free_posteriors] := by
  unfold print_post_prob_stats at h
  split at h
  · cases h
  · split at h
    · cases h
    · simp only at h
      exact (congrArg Prod.fst h).symm

/-- The posterior statistics of a unit open no file but those named by
`set_output_fname` from the output root and the category. -/
theorem unit_posteriors_files (pf : phyloFit_struct) (mod : TreeModel) (cat : Int)
    (root : String) (events : List UnitEvent) (hroot : pf.output_fname_root = some root)
    (h : unit_posteriors pf mod cat = .ok events) :
    ∀ name ∈ posterior_files events,
      name = set_output_fname root cat ".postprob" ∨
      name = set_output_fname root cat ".expsub" ∨
      name = set_output_fname root cat ".exptotsub" := by
  unfold unit_posteriors at h
  rw [hroot] at h
  simp only at h
  split at h
  · cases hpp : print_post_prob_stats mod root pf.do_bases pf.do_expected_nsubst
        pf.do_expected_nsubst_tot cat with
    | mk trace res =>
      rw [hpp] at h
      cases res with
      | error e => cases h
      | ok m =>
        cases h
        have htrace := print_post_prob_stats_trace _ _ _ _ _ _ _ _ hpp
        subst htrace
        intro name hname
        cases hb : pf.do_bases <;> cases he : pf.do_expected_nsubst <;>
          cases ht : pf.do_expected_nsubst_tot <;>
          simp [posterior_files, post_prob_section, hb, he, ht] at hname <;>
          tauto
  · cases h
    intro name hname
    simp [posterior_files] at hname

/-- C15 does not hold on the code: with the root `out`, the windows (1,100)
and (51,150) and the posterior probabilities requested, the units of the first
and of the second window write their models to `out.win-1.mod` and
`out.win-2.mod` but both write their posterior probabilities to
`out.postprob`, not to `out.win-1.postprob` and `out.win-2.postprob`: line 877
hands the bare root to `print_post_prob_stats`, whose file names come from the
root and the category alone. -/
theorem C15_posterior_files_collide :
    (process_unit sample_unit_env
        { default_options (two_seq_msa 250) with
          output_fname_root := some "out", do_bases := true }
        (sample_setup (some [1, 100, 51, 150])) (two_seq_msa 100) 0 0 (-1)).map
      (fun events => (model_files events, posterior_files events)) =
        .ok (["out.win-1.mod"], ["out.postprob"]) ∧
    (process_unit sample_unit_env
        { default_options (two_seq_msa 250) with
          output_fname_root := some "out", do_bases := true }
        (sample_setup (some [1, 100, 51, 150])) (two_seq_msa 100) 2 0 (-1)).map
      (fun events => (model_files events, posterior_files events)) =
        .ok (["out.win-2.mod"], ["out.postprob"]) ∧
    specified_posterior_fname "out" 1 (-1) ".postprob" = "out.win-1.postprob" ∧
    specified_posterior_fname "out" 2 (-1) ".postprob" = "out.win-2.postprob" ∧
    set_output_fname "out" (-1) ".postprob" = "out.postprob" ∧
    set_output_fname "out" 3 ".expsub" = "out.3.expsub" := by
  refine ⟨?_, ?_, by decide, by decide, by decide, by decide⟩
  · simp [process_unit, configure_estimation, unit_model, default_options, sample_setup,
      sample_unit_env, two_leaf_model, check_pruned, TreeNode.nnodes, insufficient_sites,
      score_or_fit, two_seq_msa, unit_output, model_fname, unit_posteriors,
      print_post_prob_stats, post_prob_section, set_output_fname, print_window_summary,
      print_seq_gc, MSA.nseqs, model_files, posterior_files, bind, Except.bind, pure,
      Except.pure, Except.map, Int.tdiv]
    decide
  · simp [process_unit, configure_estimation, unit_model, default_options, sample_setup,
      sample_unit_env, two_leaf_model, check_pruned, TreeNode.nnodes, insufficient_sites,
      score_or_fit, two_seq_msa, unit_output, model_fname, unit_posteriors,
      print_post_prob_stats, post_prob_section, set_output_fname, print_window_summary,
      print_seq_gc, MSA.nseqs, model_files, posterior_files, bind, Except.bind, pure,
      Except.pure, Except.map, Int.tdiv]
    decide

end PhyloFit
